import Mathlib

/-!
# Verification of the planetx_server deduction core

A shallow embedding, in Lean 4, of the hidden-information deduction engine of
`planetx_server` (the Layout model, the Layout Enumerator, the Clue Generator
and the Constraint Filter), translated from the Rust sources
`src/map/model.rs`, `src/map/enumerator.rs`, `src/map/clue.rs` and
`src/map/choicefilter.rs`, together with theorems settling the specification
claims about those components.

Modelling conventions:
* Rust `usize` becomes `Nat`; indexing `v[i]` (which panics out of bounds)
  becomes `List.getD`/`List.get?` - functions whose panic-freedom is itself a
  claim (C10) use the `Option`-valued form, the rest use `getD`, and every
  theorem about them is stated on inputs where the two agree.
* `f64` probability/impurity arithmetic becomes exact `ℚ` arithmetic; the only
  claims touching it concern values produced without rounding (`0` and `1`),
  plus a division `0/0` whose Rust value is `NaN`, modelled as `Option.none`.
* The seeded `SmallRng` of the clue generator is abstracted into an explicit
  finite stream of raw natural-number draws (`Rng`); loops that in Rust
  iterate unboundedly (rejection sampling, generate-and-test) take the stream
  (and, for the outer loops, explicit fuel) and return `none` when it is
  exhausted, so that every function stays total and executable.
-/

namespace PlanetX

/-- `SectorType` from `src/map/model.rs`. -/
inductive SectorType
  | Comet
  | Asteroid
  | DwarfPlanet
  | Nebula
  | X
  | Space
deriving DecidableEq, Repr

/-- `Sector` from `src/map/model.rs` (1-based `index`). -/
structure Sector where
  index : Nat
  type : SectorType
deriving DecidableEq, Repr

instance : Inhabited Sector := ⟨⟨0, SectorType.Space⟩⟩

/-- `Sectors` from `src/map/model.rs`: one complete circular layout. -/
structure Sectors where
  data : List Sector
deriving DecidableEq, Repr

/-- `MapType` from `src/map/model.rs`. -/
inductive MapType
  | Standard
  | Expert
deriving DecidableEq, Repr

/-- `MapType::sector_count`. -/
def MapType.sector_count : MapType → Nat
  | .Standard => 12
  | .Expert => 18

/-- `MapType::xclue_points` (only the length of this list matters here). -/
def MapType.xclue_points : MapType → List (Nat × Nat)
  | .Standard => [(10, 5)]
  | .Expert => [(7, 5), (16, 5)]

/-- Positional access `self.data[index - 1]` for a 1-based `index`
(total via `getD`; used only at in-range indices in the theorems). -/
def Sectors.at (ss : Sectors) (index : Nat) : Sector :=
  ss.data.getD (index - 1) default

/-- `Sectors::next` from `src/map/model.rs`. -/
def Sectors.next (ss : Sectors) (index : Nat) : Sector :=
  let next_index := if index = ss.data.length then 1 else index + 1
  ss.at next_index

/-- `Sectors::prev` from `src/map/model.rs`. -/
def Sectors.prev (ss : Sectors) (index : Nat) : Sector :=
  let prev_index := if index = 1 then ss.data.length else index - 1
  ss.at prev_index

/-- `Sectors::opposite` from `src/map/model.rs`. -/
def Sectors.opposite (ss : Sectors) (index : Nat) : Sector :=
  let opposite_index :=
    if index ≤ ss.data.length / 2 then index + ss.data.length / 2
    else index - ss.data.length / 2
  ss.at opposite_index

/-- Forward half of `Sectors::check_range_exist`: walk `next` up to `r` steps
(the Rust loop continues from the `index` field of the sector it reached). -/
def Sectors.checkRangeFwd (ss : Sectors) (object : SectorType) : Nat → Nat → Bool
  | 0, _ => false
  | r + 1, idx =>
    let nxt := ss.next idx
    nxt.type == object || ss.checkRangeFwd object r nxt.index

/-- Backward half of `Sectors::check_range_exist`. -/
def Sectors.checkRangeBwd (ss : Sectors) (object : SectorType) : Nat → Nat → Bool
  | 0, _ => false
  | r + 1, idx =>
    let prv := ss.prev idx
    prv.type == object || ss.checkRangeBwd object r prv.index

/-- `Sectors::check_range_exist` from `src/map/model.rs`: `object` occurs
within `range` steps forward or within `range` steps backward. -/
def Sectors.check_range_exist (ss : Sectors) (index : Nat) (object : SectorType)
    (range : Nat) : Bool :=
  ss.checkRangeFwd object range index || ss.checkRangeBwd object range index

/-- `Sectors::check_type_max_distance` from `src/map/model.rs`:
max over same-type pairs of (min(distance, wrapped distance) + 1), or 0. -/
def Sectors.check_type_max_distance (ss : Sectors) (object : SectorType) : Nat :=
  (((ss.data.filter (fun a => a.type == object)).flatMap (fun a =>
      (ss.data.filter (fun b => b.type == object)).map (fun b =>
        let distance := ((a.index : Int) - (b.index : Int)).natAbs
        min distance (ss.data.length - distance) + 1))).foldr max 0)

/-- `in_range` from `src/map/model.rs` (the circular-arc membership test; the
Rust `assert!`s on the bounds of `start`/`end` are preconditions of every
caller and are not modelled). -/
def in_range (start ed input max : Nat) : Bool :=
  if start < ed then decide (start ≤ input ∧ input ≤ ed)
  else decide ((start ≤ input ∧ input ≤ max) ∨ (1 ≤ input ∧ input ≤ ed))

/-- `Sectors::get_range_type_cnt` from `src/map/model.rs`: count of `object`
in the inclusive circular arc `[st, ed]`, with `X` also counted when the
requested type is `Space`. -/
def Sectors.get_range_type_cnt (ss : Sectors) (st ed : Nat) (object : SectorType) : Nat :=
  (ss.data.filter (fun s =>
    in_range st ed s.index ss.data.length &&
      match object with
      | SectorType.Space => s.type == SectorType.Space || s.type == SectorType.X
      | _ => s.type == object)).length

/-- `Map::target_sector` from `src/map/model.rs`: the type at `index`, with
`X` reported as `Space`. -/
def Sectors.target_sector (ss : Sectors) (index : Nat) : SectorType :=
  match (ss.at index).type with
  | SectorType.X => SectorType.Space
  | rest => rest

/-- `Map::locate_x` from `src/map/model.rs`. -/
def Sectors.locate_x (ss : Sectors) (index : Nat)
    (pre_sector_type next_sector_type : SectorType) : Bool :=
  (ss.at index).type == SectorType.X &&
    (ss.prev index).type == pre_sector_type &&
    (ss.next index).type == next_sector_type

/-- `SecretToken` from `src/map/model.rs` (the `user_id` string plays no role
in the deduction core and is omitted). -/
structure SecretToken where
  user_index : Nat
  sector_index : Nat
  meeting_index : Nat
  type : Option SectorType
deriving DecidableEq, Repr

/-- `Token` from `src/map/model.rs`. -/
structure Token where
  placed : Bool
  secret : SecretToken
  type : SectorType
deriving DecidableEq, Repr

/-- `Token::reveal_in_the_end` from `src/map/model.rs`: reveal the secret type
of a placed token; returns the updated token and the Rust return flag. -/
def Token.reveal_in_the_end (t : Token) : Token × Bool :=
  if t.placed && t.secret.type.isNone then
    ({ t with secret := { t.secret with type := some t.type } }, true)
  else (t, false)

/-- `ClueEnum` from `src/map/clue.rs`. -/
inductive ClueEnum
  | A | B | C | D | E | F | X1 | X2
deriving DecidableEq, Repr

/-- `ClueConnection` from `src/map/clue.rs`. -/
inductive ClueConnection
  | AllAdjacent
  | OneAdjacent
  | NotAdjacent
  | OneOpposite
  | NotOpposite
  | AllInRange (n : Nat)
  | NotInRange (n : Nat)
deriving DecidableEq, Repr

/-- `Clue` from `src/map/clue.rs`. -/
structure Clue where
  index : ClueEnum
  subject : SectorType
  object : SectorType
  conn : ClueConnection
deriving DecidableEq, Repr

/-- `Clue::as_secret` from `src/map/clue.rs`. The Rust function renders a
string: the subject's display name alone when `object == subject` or
`object == Space`, else subject's and object's display names separated by a
space. The six display names are pairwise distinct and space-free, so the
string is faithfully modelled by this pair (`none` = subject alone). -/
def Clue.as_secret (c : Clue) : SectorType × Option SectorType :=
  if c.object = c.subject ∨ c.object = SectorType.Space then (c.subject, none)
  else (c.subject, some c.object)

/-- The secret signature `try_secret` computed in `ClueGenerator::check_clue`
for a candidate `(subject, object)` pair (same rendering as `as_secret`). -/
def trySecret (subject object : SectorType) : SectorType × Option SectorType :=
  if object = subject ∨ object = SectorType.Space then (subject, none)
  else (subject, some object)

/-- `SurveyOperatoin` from `src/operation/model.rs` (sic; `end` is renamed
`ed`, `end` being a Lean keyword). -/
structure SurveyOperatoin where
  sector_type : SectorType
  start : Nat
  ed : Nat
deriving DecidableEq, Repr

/-- `TargetOperation` from `src/operation/model.rs`. -/
structure TargetOperation where
  index : Nat
deriving DecidableEq, Repr

/-- `ResearchOperation`: its `index` field is the clue slot being researched
(per the usage in `src/map/choicefilter.rs`); `filter_op` never reads it. -/
structure ResearchOperation where
  index : ClueEnum
deriving DecidableEq, Repr

/-- `LocateOperation` from `src/operation/model.rs`. -/
structure LocateOperation where
  index : Nat
  pre_sector_type : SectorType
  next_sector_type : SectorType
deriving DecidableEq, Repr

/-- `Operation` from `src/operation/model.rs` (the publish payloads are never
read by the deduction core). -/
inductive Operation
  | Survey (op : SurveyOperatoin)
  | Target (op : TargetOperation)
  | Research (op : ResearchOperation)
  | Locate (op : LocateOperation)
  | ReadyPublish (sectors : List SectorType)
  | DoPublish (index : Nat) (sector_type : SectorType)
deriving DecidableEq, Repr

/-- `OperationResult` from `src/operation/model.rs`. -/
inductive OperationResult
  | Survey (cnt : Nat)
  | Target (t : SectorType)
  | Research (clue : Clue)
  | Locate (r : Bool)
  | ReadyPublish (n : Nat)
  | DoPublish (p : Nat × SectorType)
deriving DecidableEq, Repr

/-! ## The Layout Enumerator (`src/map/enumerator.rs`)

Stage letters as in the Rust comment: a = Comet, b = Asteroid,
c = DwarfPlanet, d = Nebula, e = Space, f = X; positions are 0-based. -/

/-- `PRIMES_STANDARD`: 0-based positions of the primes 2,3,5,7,11. -/
def PRIMES_STANDARD : List Nat := [1, 2, 4, 6, 10]

/-- `PRIMES_EXPERT`: 0-based positions of the primes 2,3,5,7,11,13,17. -/
def PRIMES_EXPERT : List Nat := [1, 2, 4, 6, 10, 12, 16]

/-- `generate_c`: DwarfPlanet positions. Standard: each single position.
Expert: a contiguous 6-window `[start, start+5]` (both endpoints forced) plus
2 of the 4 interior positions; `sublistsLen` plays the role of itertools'
`combinations` (order-preserving subsets). -/
def generate_c (map_type : MapType) : List (List Nat) :=
  let cnt := map_type.sector_count
  match map_type with
  | .Standard => (List.range cnt).map (fun i => [i])
  | .Expert =>
    (List.range cnt).flatMap (fun start =>
      let ed := (start + 5) % cnt
      let mids := [(start + 1) % cnt, (start + 2) % cnt, (start + 3) % cnt, (start + 4) % cnt]
      (mids.sublistsLen 2).map (fun comb => start :: ed :: comb))

/-- `generate_f`: the X position — not a DwarfPlanet and not adjacent to one
(the Rust marks both circular neighbours of every `c` position as excluded). -/
def generate_f (c : List Nat) (map_type : MapType) : List Nat :=
  let cnt := map_type.sector_count
  let excluded := fun p =>
    c.any (fun pos => (pos + cnt - 1) % cnt == p || (pos + 1) % cnt == p)
  (List.range cnt).filter (fun p => !decide (p ∈ c) && !excluded p)

/-- `generate_a`: the 2 Comet positions, an (ordered) pair of remaining prime
positions (itertools `tuple_combinations`, modelled as length-2 sublists). -/
def generate_a (c : List Nat) (f : Nat) (map_type : MapType) : List (List Nat) :=
  let primes := match map_type with
    | .Standard => PRIMES_STANDARD
    | .Expert => PRIMES_EXPERT
  let available := primes.filter (fun p => !decide (p ∈ c) && !decide (p = f))
  available.sublistsLen 2

/-- `generate_b`: the 4 Asteroid positions — every chosen position has at
least one chosen circular neighbour. (The Rust sorts each combination, a
no-op since the `available` list is ascending.) -/
def generate_b (c : List Nat) (f : Nat) (a : List Nat) (map_type : MapType) :
    List (List Nat) :=
  let cnt := map_type.sector_count
  let available := (List.range cnt).filter
    (fun p => !decide (p ∈ c) && !decide (p ∈ a) && !decide (p = f))
  (available.sublistsLen 4).filter (fun bs =>
    bs.all (fun b => decide ((b + cnt - 1) % cnt ∈ bs) || decide ((b + 1) % cnt ∈ bs)))

/-- The per-key body of `pre_generate_d_e_standard` / `_expert`: for a
leftover position set `cb`, all splits into 2 Nebula positions `d` and the
remaining Space positions `e` (`eLen` of them) such that each Nebula position
has a circular neighbour among the Space positions. -/
def de_splits (n eLen : Nat) (cb : List Nat) : List (List Nat × List Nat) :=
  (cb.sublistsLen 2).filterMap (fun d =>
    let e := cb.filter (fun p => !decide (p ∈ d))
    if e.length ≠ eLen then none
    else
      let nb := fun p => [(p + n - 1) % n, (p + 1) % n]
      if d.all (fun di => (nb di).any (fun x => decide (x ∈ e))) then some (d, e)
      else none)

/-- The lookup into the precomputed `predef_d_e_standard` / `_expert` map:
the Rust `HashMap` contains one entry per `k`-subset of `0..n` (keys are the
ascending subset lists), so `get(&pos)` succeeds exactly when `pos` is such a
subset, and then returns the `de_splits` body for it. -/
def predefLookup (n k eLen : Nat) (pos : List Nat) : Option (List (List Nat × List Nat)) :=
  if pos ∈ (List.range n).sublistsLen k then some (de_splits n eLen pos) else none

/-- `build_sectors`: assemble the six position groups into a layout, sorted
ascending by 1-based index (the Rust `sort_by` on `index`, a stable sort,
modelled by the stable `insertionSort`). -/
def build_sectors (c : List Nat) (f : Nat) (a b d e : List Nat) : Sectors :=
  let res :=
    a.map (fun p => Sector.mk (p + 1) SectorType.Comet)
      ++ b.map (fun p => Sector.mk (p + 1) SectorType.Asteroid)
      ++ c.map (fun p => Sector.mk (p + 1) SectorType.DwarfPlanet)
      ++ d.map (fun p => Sector.mk (p + 1) SectorType.Nebula)
      ++ e.map (fun p => Sector.mk (p + 1) SectorType.Space)
      ++ [Sector.mk (f + 1) SectorType.X]
  Sectors.mk (List.insertionSort (fun s t => s.index ≤ t.index) res)

/-- `MapEnumerator::gen_sec`: the full staged enumeration (the lazy Rust
iterator materialised as a list). -/
def gen_sec (map_type : MapType) : List Sectors :=
  (generate_c map_type).flatMap (fun c =>
    (generate_f c map_type).flatMap (fun f =>
      (generate_a c f map_type).flatMap (fun a =>
        ((generate_b c f a map_type).filterMap (fun b =>
          let pos := (List.range map_type.sector_count).filter (fun p =>
            !decide (p ∈ a) && !decide (p ∈ b) && !decide (p ∈ c) && !decide (p = f))
          let lk : Option (List (List Nat × List Nat)) := match map_type with
            | .Standard => predefLookup 12 4 2 pos
            | .Expert => predefLookup 18 7 5 pos
          lk.map (fun de =>
              de.map (fun p => build_sectors c f a b p.1 p.2)))).flatten)))

/-! ## The Constraint Filter (`src/map/choicefilter.rs`) -/

/-- `MAX_CACHED_COUNT`: materialization cap for a human player. -/
def MAX_CACHED_COUNT : Nat := 100000

/-- `MAX_CACHED_COUNT_FOR_BOT`: materialization cap for a bot. -/
def MAX_CACHED_COUNT_FOR_BOT : Nat := 500000

/-- `ChoiceFilter` from `src/map/choicefilter.rs`. The Rust struct stores an
`id : String` and derives `is_bot()` as `id.starts_with("bot-")`; only that
boolean is ever consumed, so it is modelled directly as the field `isBot`. -/
structure ChoiceFilter where
  map_type : MapType
  isBot : Bool
  all : List Sectors
  ops : List (Operation × OperationResult)
  tokens : List Token
  initialized : Bool
deriving DecidableEq, Repr

/-- `ChoiceFilter::new`. -/
def ChoiceFilter.new (map_type : MapType) (isBot : Bool) : ChoiceFilter :=
  ⟨map_type, isBot, [], [], [], false⟩

/-- `ChoiceFilter::len`. -/
def ChoiceFilter.len (cf : ChoiceFilter) : Nat := cf.all.length

/-- `ChoiceFilter::filter_token`: the token predicate applied to one
candidate layout (total via `getD`; the `Option`-valued `filter_token_q`
below models the Rust panic behaviour, which is claim C10's subject). -/
def filter_token (ss : Sectors) (token : Token) : Bool :=
  if !token.placed then true
  else if token.secret.type.isNone then true
  else if token.secret.meeting_index == 4 then
    (ss.at token.secret.sector_index).type != token.type
  else
    (ss.at token.secret.sector_index).type == token.type

/-- `ChoiceFilter::filter_token` with the Rust indexing partiality made
explicit: `self.data[token.secret.sector_index - 1]` panics (`none`) when
`sector_index = 0` (usize underflow, then out-of-bounds) or when
`sector_index` exceeds the layout length. -/
def filter_token_q (ss : Sectors) (token : Token) : Option Bool :=
  if !token.placed then some true
  else if token.secret.type.isNone then some true
  else if token.secret.sector_index = 0 then none
  else
    match ss.data.get? (token.secret.sector_index - 1) with
    | none => none
    | some s =>
      if token.secret.meeting_index == 4 then some (s.type != token.type)
      else some (s.type == token.type)

/-- The Research arm of `ChoiceFilter::filter_op`: re-evaluate the clue's
relation against the candidate layout. -/
def researchCheck (ss : Sectors) (clue : Clue) : Bool :=
  match clue.conn with
  | ClueConnection.AllAdjacent =>
    (ss.data.filter (fun x => x.type == clue.subject)).all (fun x =>
      (ss.prev x.index).type == clue.object || (ss.next x.index).type == clue.object)
  | ClueConnection.OneAdjacent =>
    (ss.data.filter (fun x => x.type == clue.subject)).any (fun x =>
      (ss.prev x.index).type == clue.object || (ss.next x.index).type == clue.object)
  | ClueConnection.NotAdjacent =>
    (ss.data.filter (fun x => x.type == clue.subject)).all (fun x =>
      (ss.prev x.index).type != clue.object && (ss.next x.index).type != clue.object)
  | ClueConnection.OneOpposite =>
    ss.data.any (fun x => x.type == clue.subject && (ss.opposite x.index).type == clue.object)
  | ClueConnection.NotOpposite =>
    ss.data.all (fun x => x.type != clue.subject || (ss.opposite x.index).type != clue.object)
  | ClueConnection.AllInRange range =>
    (ss.data.filter (fun x => x.type == clue.subject)).all (fun x =>
      ss.check_range_exist x.index clue.object range)
  | ClueConnection.NotInRange range =>
    (ss.data.filter (fun x => x.type == clue.subject)).all (fun x =>
      !ss.check_range_exist x.index clue.object range)

/-- `ChoiceFilter::filter_op`: one (operation, result) pair as a predicate on
a candidate layout. Mismatched pairs fall through to the final `_ => true`. -/
def filter_op (ss : Sectors) (op : Operation) (opr : OperationResult) : Bool :=
  match op, opr with
  | Operation.Survey sop, OperationResult.Survey cnt =>
    ss.get_range_type_cnt sop.start sop.ed sop.sector_type == cnt
  | Operation.Target top, OperationResult.Target t =>
    match t with
    | SectorType.Space =>
      (ss.at top.index).type == SectorType.Space || (ss.at top.index).type == SectorType.X
    | _ => (ss.at top.index).type == t
  | Operation.Research _, OperationResult.Research clue => researchCheck ss clue
  | Operation.Locate lop, OperationResult.Locate r =>
    if r then
      (ss.at lop.index).type == SectorType.X &&
        (ss.prev lop.index).type == lop.pre_sector_type &&
        (ss.next lop.index).type == lop.next_sector_type
    else true
  | Operation.ReadyPublish _, OperationResult.ReadyPublish _ => true
  | Operation.DoPublish _ _, OperationResult.DoPublish _ => true
  | _, _ => true

/-- `ChoiceFilter::update_tokens`. -/
def ChoiceFilter.update_tokens (cf : ChoiceFilter) (token : List Token) : ChoiceFilter :=
  if !cf.initialized then { cf with tokens := token }
  else { cf with all := cf.all.filter (fun ss => token.all (fun t => filter_token ss t)) }

/-- The early-return guard of `ChoiceFilter::add_operation` (checked after
the new operation has been pushed): on the Expert map, a non-bot filter skips
the materialization attempt until 3 operations are buffered. -/
def skipAttempt (cf : ChoiceFilter) : Bool :=
  (cf.map_type == MapType.Expert) && cf.ops.length < 3 && !cf.isBot

/-- The cap applied when deciding to keep a materialized candidate set. -/
def ChoiceFilter.cap (cf : ChoiceFilter) : Nat :=
  if cf.isBot then MAX_CACHED_COUNT_FOR_BOT else MAX_CACHED_COUNT

/-- The uninitialized branch of `ChoiceFilter::add_operation` after the new
pair has been buffered (the Rust shadows `self` with the pushed state): skip
per the guard, otherwise materialize — filter the full enumeration through
every buffered pair and the token snapshot — and keep the set only when it is
within the cap. -/
def addOpAttempt (cf : ChoiceFilter) : ChoiceFilter :=
  if skipAttempt cf then cf
  else
    let filtered := (gen_sec cf.map_type).filter (fun ss =>
      cf.ops.all (fun p => filter_op ss p.1 p.2) &&
        cf.tokens.all (fun t => filter_token ss t))
    if filtered.length ≤ cf.cap then { cf with all := filtered, initialized := true }
    else cf

/-- `ChoiceFilter::add_operation`. Uninitialized: buffer the pair and run the
materialization attempt. Initialized: one retain pass with the new pair. -/
def ChoiceFilter.add_operation (cf : ChoiceFilter) (op : Operation)
    (result : OperationResult) : ChoiceFilter :=
  if !cf.initialized then addOpAttempt { cf with ops := cf.ops ++ [(op, result)] }
  else
    { cf with all := cf.all.filter (fun ss => filter_op ss op result),
              ops := cf.ops ++ [(op, result)] }

/-! ### Derived read-only queries -/

/-- `SectorPossibility` (the Rust `rate: f64` becomes an exact `ℚ`). -/
structure SectorPossibility where
  sector_type : SectorType
  rate : ℚ
deriving DecidableEq, Repr

/-- `SectorPossibilities`: the per-position frequency histogram. -/
structure SectorPossibilities where
  index : Nat
  possibilities : List SectorPossibility
deriving DecidableEq, Repr

/-- The fixed traversal order used to enumerate histogram entries. The Rust
iterates a `HashMap` in unspecified order before sorting by descending rate;
every theorem below is invariant under that order. -/
def allTypes : List SectorType :=
  [SectorType.Comet, SectorType.Asteroid, SectorType.DwarfPlanet,
   SectorType.Nebula, SectorType.X, SectorType.Space]

/-- `From<Vec<Sectors>> for AllSectorPossibilities`: for each position, the
normalized frequency of each occurring type, sorted descending by rate. -/
def all_possibilities (value : List Sectors) : List SectorPossibilities :=
  if value.isEmpty then []
  else
    let sector_cnt := (value.headD (Sectors.mk [])).data.length
    (List.range sector_cnt).map (fun i0 =>
      let i := i0 + 1
      let entries := allTypes.filterMap (fun t =>
        let v := (value.filter (fun s => (s.at i).type == t)).length
        if v == 0 then none
        else some (SectorPossibility.mk t ((v : ℚ) / (value.length : ℚ))))
      SectorPossibilities.mk i
        (List.insertionSort (fun p q => q.rate ≤ p.rate) entries))

/-- `ChoiceFilter::all_possibilities`. -/
def ChoiceFilter.all_possibilities (cf : ChoiceFilter) : List SectorPossibilities :=
  PlanetX.all_possibilities cf.all

/-- `Iterator::all_equal` from itertools: every element equals the first
(true on the empty list). -/
def allEqual {α : Type} [BEq α] : List α → Bool
  | [] => true
  | x :: xs => xs.all (fun y => y == x)

/-- The 1-based index of the (first) `X` sector of a candidate. The Rust
`unwrap`s here; every enumerated layout contains an `X`, and the default `0`
is never produced on the inputs the theorems quantify over. -/
def xIndexOf (s : Sectors) : Nat :=
  (((s.data.filter (fun x => x.type == SectorType.X)).map (fun x => x.index)).headD 0)

/-- The per-candidate signature compared by `can_locate`: the list of types
adjacent to an `X` sector, paired with the `X` index. -/
def canLocateKey (s : Sectors) : List SectorType × Nat :=
  let adjacent := ((List.range s.data.length).map (fun i0 => i0 + 1)).filterMap (fun i =>
    if (s.prev i).type == SectorType.X || (s.next i).type == SectorType.X then
      some (s.at i).type
    else none)
  (adjacent, xIndexOf s)

/-- `ChoiceFilter::can_locate`: initialized, and the `canLocateKey` of every
candidate is identical (`all_equal`, which is true of an empty set). -/
def ChoiceFilter.can_locate (cf : ChoiceFilter) : Bool :=
  cf.initialized && allEqual (cf.all.map canLocateKey)

/-- The scan in `ChoiceFilter::try_locate` selecting the position with the
highest `X` rate (strict improvement, initial best `(0, 0)`). -/
def tryLocateScan (table : List SectorPossibilities) : Nat × ℚ :=
  table.foldl (fun acc s =>
    s.possibilities.foldl (fun acc p =>
      if p.sector_type == SectorType.X && acc.2 < p.rate then (s.index, p.rate) else acc)
      acc) (0, 0)

/-- `ChoiceFilter::try_locate`. The outer `Option` is the panic behaviour:
when no position carries any `X` probability (in particular whenever the
candidate set is empty) the Rust computes `pre_index = 0 - 1 : usize` and
indexes out of bounds. The inner `Option` is the Rust return value. -/
def ChoiceFilter.try_locate (cf : ChoiceFilter) : Option (Option LocateOperation) :=
  let table := cf.all_possibilities
  let x_index := (tryLocateScan table).1
  if x_index = 0 then none
  else
    let pre_index := if x_index = 1 then table.length else x_index - 1
    let next_index := if x_index = table.length then 1 else x_index + 1
    match table.get? (pre_index - 1), table.get? (next_index - 1) with
    | some pre, some nxt =>
      let pre_sector_type :=
        (pre.possibilities.filter (fun x => x.sector_type != SectorType.X)).head?
      let next_sector_type :=
        (nxt.possibilities.filter (fun x => x.sector_type != SectorType.X)).head?
      match pre_sector_type, next_sector_type with
      | some p, some n =>
        some (some (LocateOperation.mk x_index p.sector_type n.sector_type))
      | _, _ => some none
    | _, _ => none

/-- `ChoiceFilter::effect_survey`: `1 − Σ p_k²` over the distribution of
distinct survey outcome counts (returns 0 when uninitialized). No division
occurs on an empty candidate set, so `ℚ` matches the Rust `f64` exactly on
every value a theorem below mentions. -/
def ChoiceFilter.effect_survey (cf : ChoiceFilter) (survey : SurveyOperatoin) : ℚ :=
  if !cf.initialized then 0
  else
    let counts := cf.all.map (fun s =>
      s.get_range_type_cnt survey.start survey.ed survey.sector_type)
    let total : ℚ := (cf.all.length : ℚ)
    let res := (counts.dedup.map (fun k =>
      let rate := ((counts.filter (fun c => c == k)).length : ℚ) / total
      rate * rate)).sum
    1 - res

/-- `ChoiceFilter::effect_target`: the same impurity over sector types at
`index`, merging `X` and `Space`. `none` models the out-of-bounds panic on
`all_possibilities.0[index - 1]` (e.g. on an initialized empty set). -/
def ChoiceFilter.effect_target (cf : ChoiceFilter) (index : Nat) : Option ℚ :=
  if !cf.initialized then some 0
  else
    match cf.all_possibilities.get? (index - 1) with
    | none => none
    | some sp =>
      let classOf := fun t => match t with
        | SectorType.X => SectorType.Space
        | rest => rest
      let rates := allTypes.filterMap (fun t =>
        let v := (sp.possibilities.filter (fun p => classOf p.sector_type == t)).map
          (fun p => p.rate)
        if v.isEmpty then none else some v.sum)
      some (1 - (rates.map (fun v => v * v)).sum)

/-- `ChoiceFilter::effect_research`: the fraction of candidates on which the
clue holds (0 when uninitialized). `none` models the Rust `0.0 / 0.0 = NaN`
on an initialized empty candidate set. -/
def ChoiceFilter.effect_research (cf : ChoiceFilter) (clue : Clue) : Option ℚ :=
  if !cf.initialized then some 0
  else if cf.all.length = 0 then none
  else
    let cnt := (cf.all.filter (fun ss =>
      filter_op ss (Operation.Research (ResearchOperation.mk clue.index))
        (OperationResult.Research clue))).length
    some ((cnt : ℚ) / (cf.all.length : ℚ))

/-! ## The Clue Generator (`src/map/clue.rs`) -/

/-- The relation-evaluation block of `ClueGenerator::check_clue` (the
`match conn` at its end, including its hard-coded deny-list arms), evaluated
against the generator's true layout `ss`. -/
def checkClueRelation (ss : Sectors) (subject object : SectorType)
    (conn : ClueConnection) : Bool :=
  match conn with
  | ClueConnection.AllAdjacent =>
    if subject = SectorType.Comet ∧ object = SectorType.Comet then false
    else if (subject = SectorType.Asteroid ∧ object = SectorType.Asteroid) ∨
        (subject = SectorType.Nebula ∧ object = SectorType.Space) then false
    else
      (ss.data.filter (fun x => x.type == subject)).all (fun x =>
        (ss.prev x.index).type == object || (ss.next x.index).type == object)
  | ClueConnection.OneAdjacent =>
    if subject = object then false
    else if subject = SectorType.Nebula ∧ object = SectorType.Space then false
    else
      (ss.data.filter (fun x => x.type == subject)).any (fun x =>
        (ss.prev x.index).type == object || (ss.next x.index).type == object)
  | ClueConnection.NotAdjacent =>
    if subject = object then false
    else if subject = SectorType.Nebula ∧ object = SectorType.Space then false
    else if subject = SectorType.X ∧ object = SectorType.DwarfPlanet then false
    else
      (ss.data.filter (fun x => x.type == subject)).all (fun x =>
        (ss.prev x.index).type != object && (ss.next x.index).type != object)
  | ClueConnection.OneOpposite =>
    ss.data.any (fun x => x.type == subject && (ss.opposite x.index).type == object)
  | ClueConnection.NotOpposite =>
    subject != object &&
      ss.data.all (fun x => x.type != subject || (ss.opposite x.index).type != object)
  | ClueConnection.AllInRange range =>
    if subject = object then
      subject != SectorType.DwarfPlanet && ss.check_type_max_distance subject ≤ range
    else if subject = SectorType.Nebula ∧ object = SectorType.Space then false
    else
      (ss.data.filter (fun x => x.type == subject)).all (fun x =>
        ss.check_range_exist x.index object range)
  | ClueConnection.NotInRange range =>
    if subject = object then false
    else
      (ss.data.filter (fun x => x.type == subject)).all (fun x =>
        !ss.check_range_exist x.index object range)

/-- `ClueGenerator::check_clue`: the redundancy/usage gate against the
already-accepted `clues`, then the relation evaluation. The second Rust
duplicate test (reverse pair with equal `discriminant`) is subsumed by the
first (reverse pair) and is dead code; and the Rust `panic!` on a `Space`
subject (unreachable: subjects are drawn with `allow_space = false`) is
modelled as `false`. -/
def checkClue (ss : Sectors) (clues : List Clue) (subject object : SectorType)
    (conn : ClueConnection) : Bool :=
  if clues.any (fun clue => clue.as_secret == trySecret subject object) then false
  else if clues.any (fun clue => clue.subject == object && clue.object == subject) then false
  else if 3 ≤ (clues.filter (fun x => x.subject == subject || x.object == subject)).length
    then false
  else if 2 ≤ (clues.filter (fun x => x.subject == subject)).length then false
  else if 2 ≤ (clues.filter (fun x => x.object == object)).length then false
  else if 3 ≤ (clues.filter (fun x => x.subject == object || x.object == object)).length
    then false
  else if subject == SectorType.Space then false
  else checkClueRelation ss subject object conn

/-- The layout used by `check_x_space_only`'s swap test: retype every `X`
sector as `Space`, then retype the sector at 1-based `index` as `X`. -/
def swapXInto (sectors : Sectors) (index : Nat) : Sectors :=
  let cleared := sectors.data.map (fun s =>
    if s.type == SectorType.X then { s with type := SectorType.Space } else s)
  Sectors.mk (match cleared.get? (index - 1) with
    | none => cleared
    | some s => cleared.set (index - 1) { s with type := SectorType.X })

/-- The closure `check_clue_with_sectors` inside `check_x_space_only`:
evaluate one clue's relation against a (hypothetical) layout. -/
def checkClueWithSectors (clue : Clue) (sectors : Sectors) : Bool :=
  match clue.conn with
  | ClueConnection.AllAdjacent =>
    (sectors.data.filter (fun s => s.type == clue.subject)).all (fun s =>
      (sectors.prev s.index).type == clue.object ||
        (sectors.next s.index).type == clue.object)
  | ClueConnection.OneAdjacent =>
    (sectors.data.filter (fun s => s.type == clue.subject)).any (fun s =>
      (sectors.prev s.index).type == clue.object ||
        (sectors.next s.index).type == clue.object)
  | ClueConnection.NotAdjacent =>
    (sectors.data.filter (fun s => s.type == clue.subject)).all (fun s =>
      (sectors.prev s.index).type != clue.object &&
        (sectors.next s.index).type != clue.object)
  | ClueConnection.OneOpposite =>
    sectors.data.any (fun s =>
      s.type == clue.subject && (sectors.opposite s.index).type == clue.object)
  | ClueConnection.NotOpposite =>
    sectors.data.all (fun s =>
      s.type != clue.subject || (sectors.opposite s.index).type != clue.object)
  | ClueConnection.AllInRange range =>
    (sectors.data.filter (fun s => s.type == clue.subject)).all (fun s =>
      sectors.check_range_exist s.index clue.object range)
  | ClueConnection.NotInRange range =>
    (sectors.data.filter (fun s => s.type == clue.subject)).all (fun s =>
      !sectors.check_range_exist s.index clue.object range)

/-- The two built-in `defaults` clues of `check_x_space_only`: X is not
adjacent to a DwarfPlanet, and every Nebula is adjacent to a Space. -/
def defaultClues : List Clue :=
  [Clue.mk ClueEnum.A SectorType.X SectorType.DwarfPlanet ClueConnection.NotAdjacent,
   Clue.mk ClueEnum.A SectorType.Nebula SectorType.Space ClueConnection.AllAdjacent]

/-- `check_x_space_only` from `src/map/clue.rs`: the 1-based indices of the
`Space` sectors which, hypothetically swapped into the X role, satisfy every
general clue, every locate clue and both `defaultClues`. -/
def check_x_space_only (clues xclues : List Clue) (sectors : Sectors) : List Nat :=
  let all_clues := clues ++ xclues ++ defaultClues
  ((sectors.data.filter (fun x => x.type == SectorType.Space)).filter (fun x =>
    all_clues.all (fun clue => checkClueWithSectors clue (swapXInto sectors x.index)))).map
    (fun x => x.index)

/-! ### The generation loops

The Rust draws from a per-instance seeded `SmallRng`. That stream is
abstracted as a finite list of raw natural draws (`Rng`); each primitive draw
consumes one element (`random_range(0..m)` is modelled as `head % m`), and
every loop returns `none` when the stream is exhausted, so the embedding is
total while quantifying over all possible draw sequences. -/

/-- The abstract random stream. -/
abbrev Rng := List Nat

/-- The `Distribution<SectorType>` impl from `src/map/model.rs`:
`random_range(0..=5)` mapped over the six constructors. -/
def randSectorType (k : Nat) : SectorType :=
  match k % 6 with
  | 0 => SectorType.Comet
  | 1 => SectorType.Asteroid
  | 2 => SectorType.DwarfPlanet
  | 3 => SectorType.Nebula
  | 4 => SectorType.X
  | _ => SectorType.Space

/-- `ClueGenerator::get_rand_type`: rejection-sample a sector type, skipping
`Space`/`X` unless allowed. -/
def getRandType (allow_space allow_x : Bool) : Rng → Option (SectorType × Rng)
  | [] => none
  | k :: rest =>
    let rand := randSectorType k
    if !allow_space && rand == SectorType.Space then getRandType allow_space allow_x rest
    else if !allow_x && rand == SectorType.X then getRandType allow_space allow_x rest
    else some (rand, rest)

/-- The weighted pick at the end of `ClueGenerator::get_rand_conn`. -/
def pickWeighted (r : Nat) : List (Nat × ClueConnection) → ClueConnection
  | [] => ClueConnection.NotInRange 0
  | (w, conn) :: rest => if r < w then conn else pickWeighted (r - w) rest

/-- `ClueGenerator::get_rand_conn`: build the weighted table (drawing the two
range parameters up front, in the Rust array-literal order), then pick by a
draw modulo the weight sum 319. `easy ↔ Standard map ∨ X clue`. -/
def getRandConn (map_type : MapType) (is_x : Bool) : Rng → Option (ClueConnection × Rng)
  | r1 :: r2 :: r :: rest =>
    let easy := (map_type == MapType.Standard) || is_x
    let air := ClueConnection.AllInRange (if easy then 2 + r1 % 3 else 4 + r1 % 3)
    let nir := ClueConnection.NotInRange (if easy then 3 + r2 % 2 else 2 + r2 % 2)
    let distributions :=
      [(200, ClueConnection.AllAdjacent), (10, ClueConnection.OneAdjacent),
       (16, ClueConnection.NotAdjacent), (10, ClueConnection.OneOpposite),
       (12, ClueConnection.NotOpposite), (7, air), (64, nir)]
    some (pickWeighted (r % 319) distributions, rest)
  | _ => none

/-- The clue slot for the `n`-th accepted general clue. -/
def clueIndexOf (n : Nat) : ClueEnum :=
  match n with
  | 0 => ClueEnum.A
  | 1 => ClueEnum.B
  | 2 => ClueEnum.C
  | 3 => ClueEnum.D
  | 4 => ClueEnum.E
  | _ => ClueEnum.F

/-- The first `while` of `ClueGenerator::generate_clues`: generate-and-test
general clues until six are accepted. `fuel` bounds the number of loop
iterations (the Rust loop is unbounded). -/
def genGeneral (ss : Sectors) (map_type : MapType) :
    Nat → List Clue → Rng → Option (List Clue × Rng)
  | 0, _, _ => none
  | fuel + 1, res, rng =>
    if 6 ≤ res.length then some (res, rng)
    else
      match getRandType false false rng with
      | none => none
      | some (subject, rng) =>
        match getRandType true false rng with
        | none => none
        | some (object, rng) =>
          match getRandConn map_type false rng with
          | none => none
          | some (conn, rng) =>
            if checkClue ss res subject object conn then
              genGeneral ss map_type fuel
                (res ++ [Clue.mk (clueIndexOf res.length) subject object conn]) rng
            else genGeneral ss map_type fuel res rng

/-- The inner `while` of the locate-clue loop: generate-and-test X clues
(subject forced to `X`, `easy` connections) until `xclue_points` many are
accepted. -/
def genXres (ss : Sectors) (map_type : MapType) :
    Nat → List Clue → Rng → Option (List Clue × Rng)
  | 0, _, _ => none
  | fuel + 1, xres, rng =>
    if map_type.xclue_points.length ≤ xres.length then some (xres, rng)
    else
      let subject := SectorType.X
      match getRandType true false rng with
      | none => none
      | some (object, rng) =>
        match getRandConn map_type true rng with
        | none => none
        | some (conn, rng) =>
          if checkClue ss xres subject object conn then
            genXres ss map_type fuel
              (xres ++ [Clue.mk (if xres.length = 0 then ClueEnum.X1 else ClueEnum.X2)
                subject object conn]) rng
          else genXres ss map_type fuel xres rng

/-- The outer locate-clue loop of `generate_clues`: regenerate the locate set
until it (with the defaults) pins X uniquely; give up with `Except.error`
once the attempt counter `cnt` exceeds 100. The final `List (List Clue)`
component is ghost instrumentation recording each attempted locate set (the
Rust returns only the first component); it does not influence control flow. -/
def xOuter (ss : Sectors) (map_type : MapType) (res : List Clue) :
    Nat → Nat → List Clue → List (List Clue) → Rng →
      Option (Except Unit (List Clue) × List (List Clue))
  | 0, _, _, _, _ => none
  | fuel + 1, cnt, xres, hist, rng =>
    if !xres.isEmpty && (check_x_space_only res xres ss).isEmpty then
      some (Except.ok xres, hist)
    else
      match genXres ss map_type (rng.length + 1) [] rng with
      | none => none
      | some (xres2, rng) =>
        let cnt := cnt + 1
        if 100 < cnt then some (Except.error (), hist ++ [xres2])
        else xOuter ss map_type res fuel cnt xres2 (hist ++ [xres2]) rng

/-- `ClueGenerator::generate_clues`: six general clues, then the uniquely
solvable locate-clue set (or failure after 100 unsuccessful attempts). The
last component is the ghost attempt history from `xOuter`. -/
def generate_clues (ss : Sectors) (map_type : MapType) (fuel : Nat) (rng : Rng) :
    Option (Except Unit (List Clue × List Clue) × List (List Clue)) :=
  match genGeneral ss map_type fuel [] rng with
  | none => none
  | some (res, rng) =>
    match xOuter ss map_type res fuel 0 [] [] rng with
    | none => none
    | some (Except.ok xres, hist) => some (Except.ok (res, xres), hist)
    | some (Except.error e, hist) => some (Except.error e, hist)

/-! ## Concrete layouts and inputs used by witnesses and counterexamples -/

/-- The first layout of the Standard enumeration (DwarfPlanet at 1, Comets at
2 and 11, X at 3, Nebulae at 4 and 6, Asteroids at 7–10, Space at 5 and 12). -/
def w0 : Sectors := Sectors.mk
  [⟨1, SectorType.DwarfPlanet⟩, ⟨2, SectorType.Comet⟩, ⟨3, SectorType.X⟩,
   ⟨4, SectorType.Nebula⟩, ⟨5, SectorType.Space⟩, ⟨6, SectorType.Nebula⟩,
   ⟨7, SectorType.Asteroid⟩, ⟨8, SectorType.Asteroid⟩, ⟨9, SectorType.Asteroid⟩,
   ⟨10, SectorType.Asteroid⟩, ⟨11, SectorType.Comet⟩, ⟨12, SectorType.Space⟩]

/-- `w0` is produced by the enumerator (it is the head of the stream). -/
theorem w0_mem : w0 ∈ gen_sec MapType.Standard :=
  List.mem_of_mem_head? (show (gen_sec MapType.Standard).head? = some w0 from rfl)

/-! ## Claim C3 -/

/-- C3: once a Constraint Filter is initialized, its CandidateSet never
grows — after any `add_operation` and after any `update_tokens` the number of
candidate layouts is at most the number before the call. -/
theorem candidate_set_monotone (cf : ChoiceFilter) (op : Operation)
    (r : OperationResult) (toks : List Token) (h : cf.initialized = true) :
    (cf.add_operation op r).len ≤ cf.len ∧ (cf.update_tokens toks).len ≤ cf.len := by
  constructor
  · unfold ChoiceFilter.add_operation
    simp only [h, Bool.not_true, Bool.false_eq_true, if_false, ChoiceFilter.len]
    exact List.length_filter_le _ _
  · unfold ChoiceFilter.update_tokens
    simp only [h, Bool.not_true, Bool.false_eq_true, if_false, ChoiceFilter.len]
    exact List.length_filter_le _ _

/-- An initialized one-candidate filter, for the C3 witness. -/
def cfInit1 : ChoiceFilter := ⟨MapType.Standard, false, [w0], [], [], true⟩

/-- Witness for C3 at a concrete initialized filter. -/
theorem candidate_set_monotone_witness :
    (cfInit1.add_operation (Operation.Target ⟨3⟩) (OperationResult.Target SectorType.Space)).len
        ≤ cfInit1.len ∧
      (cfInit1.update_tokens []).len ≤ cfInit1.len :=
  candidate_set_monotone cfInit1 (Operation.Target ⟨3⟩)
    (OperationResult.Target SectorType.Space) [] rfl

/-! ## Claim C5 -/

/-- C5 (amended): from an uninitialized filter, `add_operation` (i) skips the
materialization attempt when the board is Expert, the player is **not a bot**,
and fewer than 3 operations are buffered after the push; (ii) whenever the
call ends initialized, the kept CandidateSet respects the cap (100000 human /
500000 bot); (iii) whenever it ends uninitialized, the candidate set is
untouched and the operation was buffered, so the next operation retries. -/
theorem materialization_policy (cf : ChoiceFilter) (op : Operation)
    (r : OperationResult) (h : cf.initialized = false) :
    (cf.map_type = MapType.Expert → cf.isBot = false → cf.ops.length + 1 < 3 →
        cf.add_operation op r = { cf with ops := cf.ops ++ [(op, r)] })
      ∧ ((cf.add_operation op r).initialized = true →
          (cf.add_operation op r).len ≤ cf.cap)
      ∧ ((cf.add_operation op r).initialized = false →
          (cf.add_operation op r).all = cf.all ∧
            (cf.add_operation op r).ops = cf.ops ++ [(op, r)]) := by
  have hrw : cf.add_operation op r = addOpAttempt { cf with ops := cf.ops ++ [(op, r)] } := by
    unfold ChoiceFilter.add_operation
    rw [h]
    rfl
  rw [hrw]
  set cf1 : ChoiceFilter := { cf with ops := cf.ops ++ [(op, r)] } with hcf1
  have hcap : cf1.cap = cf.cap := rfl
  have hinit1 : cf1.initialized = false := h
  refine ⟨fun hmt hbot hlen => ?_, ?_, ?_⟩
  · have hskip : skipAttempt cf1 = true := by
      simp only [skipAttempt, hcf1]
      simp [hmt, hbot, List.length_append]
      omega
    simp [addOpAttempt, hskip]
  · unfold addOpAttempt
    by_cases hskip : skipAttempt cf1 = true
    · simp only [hskip, if_true]
      intro hbad
      rw [hinit1] at hbad
      cases hbad
    · simp only [Bool.not_eq_true] at hskip
      simp only [hskip, Bool.false_eq_true, if_false]
      split
      · next hle =>
          intro _
          exact hle
      · intro hbad
        rw [hinit1] at hbad
        cases hbad
  · unfold addOpAttempt
    by_cases hskip : skipAttempt cf1 = true
    · simp [hskip, hcf1]
    · simp only [Bool.not_eq_true] at hskip
      simp only [hskip, Bool.false_eq_true, if_false]
      split
      · intro hbad
        cases hbad
      · intro _
        simp [hcf1]

/-- Witness for C5 at a concrete uninitialized filter: a human Expert filter
receiving its first operation is left untouched except for the buffered op. -/
theorem materialization_policy_witness :
    (ChoiceFilter.new MapType.Expert false).add_operation (Operation.Target ⟨3⟩)
        (OperationResult.Target SectorType.Space) =
      { ChoiceFilter.new MapType.Expert false with
          ops := [(Operation.Target ⟨3⟩, OperationResult.Target SectorType.Space)] } :=
  (materialization_policy (ChoiceFilter.new MapType.Expert false) (Operation.Target ⟨3⟩)
      (OperationResult.Target SectorType.Space) rfl).1 rfl rfl (by decide)

/-- The state of a bot Expert filter during its first `add_operation` call
(one buffered operation, guard evaluated after the push). -/
def cfBotExpert : ChoiceFilter :=
  ⟨MapType.Expert, true, [], [(Operation.Target ⟨3⟩, OperationResult.Target SectorType.Space)],
    [], false⟩

/-- Counterexample to C5 as stated: on the 18-position board a **bot** filter
does not wait for 3 buffered operations — with a single buffered operation the
early-return guard is already false, so `add_operation` proceeds straight to
the materialization attempt. -/
theorem materialization_policy_counterexample :
    cfBotExpert.map_type = MapType.Expert ∧ cfBotExpert.ops.length < 3 ∧
      skipAttempt cfBotExpert = false := by
  refine ⟨rfl, by decide, rfl⟩

/-! ## Claim C10 -/

/-- C10: the token predicate is `true` — independently of the candidate
layout — for every unplaced or type-unrevealed token; for a placed,
type-revealed token it indexes the candidate at `sector_index - 1`, and is
panic-free (`isSome`) exactly when `1 ≤ sector_index ≤` board size. A placed
token revealed only by `reveal_in_the_end` (never published, so
`sector_index = 0`) falls outside that domain: the predicate panics on it. -/
theorem token_predicate_totality :
    (∀ (ss : Sectors) (t : Token), t.placed = false → filter_token_q ss t = some true)
      ∧ (∀ (ss : Sectors) (t : Token), t.secret.type = none →
          filter_token_q ss t = some true)
      ∧ (∀ (ss : Sectors) (t : Token), t.placed = true → t.secret.type.isSome = true →
          ((filter_token_q ss t).isSome = true ↔
            1 ≤ t.secret.sector_index ∧ t.secret.sector_index ≤ ss.data.length))
      ∧ (∀ (ss : Sectors) (t : Token), t.placed = true → t.secret.sector_index = 0 →
          filter_token_q ss t.reveal_in_the_end.1 = none) := by
  refine ⟨?_, ?_, ?_, ?_⟩
  · intro ss t h
    simp [filter_token_q, h]
  · intro ss t h
    simp [filter_token_q, h]
  · intro ss t hp hs
    have hnn : t.secret.type.isNone = false := by
      cases htt : t.secret.type with
      | none => rw [htt] at hs; cases hs
      | some v => rfl
    unfold filter_token_q
    rw [hp]
    simp only [Bool.not_true, Bool.false_eq_true, if_false, hnn, if_false]
    by_cases h0 : t.secret.sector_index = 0
    · simp only [h0, if_true, Option.isSome_none, Bool.false_eq_true, false_iff]
      omega
    · simp only [h0, if_false]
      have key : ∀ o : Option Sector,
          (match o with
            | none => none
            | some s => if (t.secret.meeting_index == 4) = true
                then some (s.type != t.type) else some (s.type == t.type)).isSome
            = o.isSome := by
        intro o
        cases o with
        | none => rfl
        | some s =>
          show (if (t.secret.meeting_index == 4) = true
              then some (s.type != t.type) else some (s.type == t.type)).isSome
            = (some s).isSome
          split <;> rfl
      rw [key]
      cases hget : ss.data.get? (t.secret.sector_index - 1) with
      | none =>
        have hlen : ss.data.length ≤ t.secret.sector_index - 1 := List.get?_eq_none.mp hget
        simp only [Option.isSome_none, Bool.false_eq_true, false_iff]
        omega
      | some s =>
        have hlt : t.secret.sector_index - 1 < ss.data.length :=
          (List.get?_eq_some.mp hget).1
        simp only [Option.isSome_some, true_iff]
        omega
  · intro ss t hp h0
    unfold Token.reveal_in_the_end
    by_cases hn : t.secret.type.isNone = true
    · simp only [hp, hn, Bool.and_self, if_true]
      simp [filter_token_q, h0]
    · simp only [hp, hn]
      simp only [Bool.true_and, Bool.false_eq_true, if_false]
      have hs : t.secret.type.isNone = false := by
        cases htt : t.secret.type with
        | none => exact absurd (by rw [htt]; rfl) hn
        | some v => rfl
      simp [filter_token_q, hp, hs, h0]

/-- Witness for C10 at concrete tokens: an unplaced token never filters; a
placed revealed token at sector 5 of a 12-board is in the totality domain; a
placed never-published token revealed at game end panics. -/
theorem token_predicate_totality_witness :
    filter_token_q w0 ⟨false, ⟨1, 0, 0, none⟩, SectorType.Comet⟩ = some true
      ∧ ((filter_token_q w0 ⟨true, ⟨1, 5, 0, some SectorType.Comet⟩,
            SectorType.Comet⟩).isSome = true ↔ 1 ≤ 5 ∧ 5 ≤ w0.data.length)
      ∧ filter_token_q w0
          ((Token.mk true ⟨1, 0, 3, none⟩ SectorType.Asteroid).reveal_in_the_end).1 = none :=
  ⟨token_predicate_totality.1 w0 ⟨false, ⟨1, 0, 0, none⟩, SectorType.Comet⟩ rfl,
   token_predicate_totality.2.2.1 w0 ⟨true, ⟨1, 5, 0, some SectorType.Comet⟩,
      SectorType.Comet⟩ rfl rfl,
   token_predicate_totality.2.2.2 w0 (Token.mk true ⟨1, 0, 3, none⟩ SectorType.Asteroid)
      rfl rfl⟩

/-! ## Claim C4 -/

/-- Plain per-type arc count (no aliasing), the reference notion against
which `get_range_type_cnt`'s aliasing is stated. -/
def countInArc (ss : Sectors) (st ed : Nat) (t : SectorType) : Nat :=
  (ss.data.filter (fun s => in_range st ed s.index ss.data.length && s.type == t)).length

/-- Splitting a filter over a pointwise-disjoint boolean disjunction. -/
theorem length_filter_or_disjoint {α : Type} (l : List α) (p q : α → Bool)
    (h : ∀ a ∈ l, ¬(p a = true ∧ q a = true)) :
    (l.filter (fun a => p a || q a)).length = (l.filter p).length + (l.filter q).length := by
  induction l with
  | nil => rfl
  | cons x xs ih =>
    have hx := h x (List.mem_cons_self x xs)
    have ihx := ih (fun a ha => h a (List.mem_cons_of_mem x ha))
    by_cases hp : p x = true
    · have hq : q x = false := by
        cases hq : q x
        · rfl
        · exact absurd ⟨hp, hq⟩ hx
      simp [List.filter_cons, hp, hq, ihx]
      omega
    · have hp' : p x = false := by
        cases hpx : p x
        · rfl
        · exact absurd hpx hp
      cases hq : q x <;> simp [List.filter_cons, hp', hq, ihx] <;> omega

/-- C4: `get_range_type_cnt` with type `Space` counts `Space` plus `X`
sectors and with any other type counts exactly that type; the
`Target(index) == t` predicate is exact type match except that a `Space`
result also accepts a candidate with `X` at the position — asymmetrically:
for a non-`Space`, non-`X` result a candidate with `X` there is rejected,
and the Target operation can never report `X` (`target_sector` maps it to
`Space`). -/
theorem space_alias_semantics (ss : Sectors) (st ed : Nat) (t : SectorType)
    (idx : Nat) (h1 : 1 ≤ idx) (h2 : idx ≤ ss.data.length) :
    ss.get_range_type_cnt st ed SectorType.Space
        = countInArc ss st ed SectorType.Space + countInArc ss st ed SectorType.X
      ∧ (t ≠ SectorType.Space → ss.get_range_type_cnt st ed t = countInArc ss st ed t)
      ∧ (filter_op ss (Operation.Target ⟨idx⟩) (OperationResult.Target SectorType.Space) = true
          ↔ ((ss.at idx).type = SectorType.Space ∨ (ss.at idx).type = SectorType.X))
      ∧ (t ≠ SectorType.Space →
          (filter_op ss (Operation.Target ⟨idx⟩) (OperationResult.Target t) = true
            ↔ (ss.at idx).type = t))
      ∧ (t ≠ SectorType.Space → t ≠ SectorType.X → (ss.at idx).type = SectorType.X →
          filter_op ss (Operation.Target ⟨idx⟩) (OperationResult.Target t) = false)
      ∧ (∀ j, ss.target_sector j ≠ SectorType.X) := by
  refine ⟨?_, ?_, ?_, ?_, ?_, ?_⟩
  · unfold Sectors.get_range_type_cnt countInArc
    rw [List.filter_congr (q := fun s =>
      (in_range st ed s.index ss.data.length && s.type == SectorType.Space)
        || (in_range st ed s.index ss.data.length && s.type == SectorType.X))]
    · exact length_filter_or_disjoint _ _ _ (fun a _ => by
        cases ha : a.type <;> simp [ha])
    · intro a _
      cases hr : in_range st ed a.index ss.data.length <;> cases ha : a.type <;> simp [hr, ha]
  · intro ht
    unfold Sectors.get_range_type_cnt countInArc
    cases t <;> first | exact absurd rfl ht | rfl
  · show ((ss.at idx).type == SectorType.Space || (ss.at idx).type == SectorType.X) = true ↔ _
    cases ha : (ss.at idx).type <;> simp [ha]
  · intro ht
    cases t <;> first
      | exact absurd rfl ht
      | (show ((ss.at idx).type == _) = true ↔ _
         cases ha : (ss.at idx).type <;> simp [ha])
  · intro ht htx hx
    cases t <;> first
      | exact absurd rfl ht
      | exact absurd rfl htx
      | (show ((ss.at idx).type == _) = false
         rw [hx]
         rfl)
  · intro j
    unfold Sectors.target_sector
    cases (ss.at j).type <;> simp

/-- Witness for C4, containing the spec's scenario: on `w0` (X at sector 3),
`Target(3) == Space` accepts the candidate while `Target(3) == Comet`
rejects it, and the arc 1–4 counts 1 for `Space` (the X) and 0 raw `Space`. -/
theorem space_alias_semantics_witness :
    filter_op w0 (Operation.Target ⟨3⟩) (OperationResult.Target SectorType.Space) = true
      ∧ filter_op w0 (Operation.Target ⟨3⟩) (OperationResult.Target SectorType.Comet) = false
      ∧ w0.get_range_type_cnt 1 4 SectorType.Space
          = countInArc w0 1 4 SectorType.Space + countInArc w0 1 4 SectorType.X :=
  ⟨((space_alias_semantics w0 1 4 SectorType.Comet 3 (by decide) (by decide)).2.2.1).mpr
      (Or.inr (by decide)),
   (space_alias_semantics w0 1 4 SectorType.Comet 3 (by decide) (by decide)).2.2.2.2.1
      (by decide) (by decide) (by decide),
   (space_alias_semantics w0 1 4 SectorType.Comet 3 (by decide) (by decide)).1⟩

/-! ## Claim C6 -/

/-- Filter states reachable through the public constructor and mutators. -/
inductive Reachable : ChoiceFilter → Prop
  | new (mt : MapType) (b : Bool) : Reachable (ChoiceFilter.new mt b)
  | add {cf : ChoiceFilter} (op : Operation) (r : OperationResult) :
      Reachable cf → Reachable (cf.add_operation op r)
  | upd {cf : ChoiceFilter} (toks : List Token) :
      Reachable cf → Reachable (cf.update_tokens toks)

/-- `add_operation` never de-initializes. -/
theorem add_operation_initialized {cf : ChoiceFilter} (op : Operation)
    (r : OperationResult) (h : cf.initialized = true) :
    (cf.add_operation op r).initialized = true := by
  unfold ChoiceFilter.add_operation
  simp [h]

/-- `update_tokens` never de-initializes. -/
theorem update_tokens_initialized {cf : ChoiceFilter} (toks : List Token)
    (h : cf.initialized = true) :
    (cf.update_tokens toks).initialized = true := by
  unfold ChoiceFilter.update_tokens
  simp [h]

/-- In every reachable state, an uninitialized filter holds no candidates. -/
theorem reachable_uninit_all_nil {cf : ChoiceFilter} (h : Reachable cf) :
    cf.initialized = false → cf.all = [] := by
  induction h with
  | new mt b => intro _; rfl
  | add op r _ ih =>
    intro huninit
    rename_i cf0 _
    cases hinit : cf0.initialized with
    | true =>
      exact absurd (add_operation_initialized op r hinit) (by rw [huninit]; exact fun e => nomatch e)
    | false =>
      have hrw : cf0.add_operation op r
          = addOpAttempt { cf0 with ops := cf0.ops ++ [(op, r)] } := by
        unfold ChoiceFilter.add_operation
        rw [hinit]
        rfl
      rw [hrw] at huninit ⊢
      unfold addOpAttempt at huninit ⊢
      by_cases hskip : skipAttempt { cf0 with ops := cf0.ops ++ [(op, r)] } = true
      · simp only [hskip, if_true]
        exact ih hinit
      · simp only [Bool.not_eq_true] at hskip
        simp only [hskip, Bool.false_eq_true, if_false] at huninit ⊢
        split at huninit
        · exact absurd huninit (by intro e; cases e)
        · next hnle =>
            rw [if_neg hnle]
            exact ih hinit
  | upd toks _ ih =>
    intro huninit
    rename_i cf0 _
    cases hinit : cf0.initialized with
    | true =>
      exact absurd (update_tokens_initialized toks hinit)
        (by rw [huninit]; exact fun e => nomatch e)
    | false =>
      unfold ChoiceFilter.update_tokens
      rw [hinit]
      simpa using ih hinit

/-- C6 (amended): on every reachable **uninitialized** filter the derived
read-only queries return their neutral sentinels — possibility count 0, empty
probability table, `can_locate = false`, and all three effect scores 0 — and
on any filter with an empty candidate set (in particular an initialized one)
the count is 0 and the table is empty. (The original claim fails on an
initialized empty set: see the counterexample, where `can_locate` is true,
`effect_survey` is 1, `try_locate` and `effect_target` panic, and
`effect_research` is NaN.) -/
theorem neutral_sentinels (cf : ChoiceFilter) (h : Reachable cf)
    (hi : cf.initialized = false) (survey : SurveyOperatoin) (idx : Nat) (clue : Clue) :
    cf.len = 0 ∧ cf.all_possibilities = [] ∧ cf.can_locate = false
      ∧ cf.effect_survey survey = 0 ∧ cf.effect_target idx = some 0
      ∧ cf.effect_research clue = some 0
      ∧ (∀ cf' : ChoiceFilter, cf'.all = [] →
          cf'.len = 0 ∧ cf'.all_possibilities = []) := by
  have hnil : cf.all = [] := reachable_uninit_all_nil h hi
  refine ⟨?_, ?_, ?_, ?_, ?_, ?_, ?_⟩
  · simp [ChoiceFilter.len, hnil]
  · simp [ChoiceFilter.all_possibilities, all_possibilities, hnil]
  · simp [ChoiceFilter.can_locate, hi]
  · simp [ChoiceFilter.effect_survey, hi]
  · simp [ChoiceFilter.effect_target, hi]
  · simp [ChoiceFilter.effect_research, hi]
  · intro cf' hnil'
    exact ⟨by simp [ChoiceFilter.len, hnil'],
      by simp [ChoiceFilter.all_possibilities, all_possibilities, hnil']⟩

/-- Witness for C6 on the freshly constructed (uninitialized) filter. -/
theorem neutral_sentinels_witness :
    (ChoiceFilter.new MapType.Standard false).len = 0
      ∧ (ChoiceFilter.new MapType.Standard false).all_possibilities = []
      ∧ (ChoiceFilter.new MapType.Standard false).can_locate = false
      ∧ (ChoiceFilter.new MapType.Standard false).effect_survey ⟨SectorType.Comet, 1, 4⟩ = 0
      ∧ (ChoiceFilter.new MapType.Standard false).effect_target 1 = some 0
      ∧ (ChoiceFilter.new MapType.Standard false).effect_research
          ⟨ClueEnum.A, SectorType.Comet, SectorType.Nebula, ClueConnection.OneAdjacent⟩ = some 0
      ∧ (∀ cf' : ChoiceFilter, cf'.all = [] →
          cf'.len = 0 ∧ cf'.all_possibilities = []) :=
  neutral_sentinels (ChoiceFilter.new MapType.Standard false)
    (Reachable.new MapType.Standard false) rfl ⟨SectorType.Comet, 1, 4⟩ 1
    ⟨ClueEnum.A, SectorType.Comet, SectorType.Nebula, ClueConnection.OneAdjacent⟩

/-- An initialized filter whose candidate set has been filtered down to
nothing (a reachable terminal state). -/
def cfEmptyInit : ChoiceFilter := ⟨MapType.Standard, false, [], [], [], true⟩

/-- Counterexample to C6 as stated: on an initialized empty CandidateSet
`can_locate` returns `true` (itertools `all_equal` holds vacuously),
`effect_survey` returns `1` (not 0), `effect_target` and `try_locate` panic
(out-of-bounds indexing, modelled `none`), and `effect_research` divides
`0/0` (NaN, modelled `none`); `try_locate` panics even on an uninitialized
filter, having no initialization guard at all. -/
theorem neutral_sentinels_counterexample :
    cfEmptyInit.can_locate = true
      ∧ cfEmptyInit.effect_survey ⟨SectorType.Comet, 1, 4⟩ = 1
      ∧ cfEmptyInit.effect_target 1 = none
      ∧ cfEmptyInit.effect_research
          ⟨ClueEnum.A, SectorType.Comet, SectorType.Nebula, ClueConnection.OneAdjacent⟩ = none
      ∧ cfEmptyInit.try_locate = none
      ∧ (ChoiceFilter.new MapType.Standard false).try_locate = none := by
  refine ⟨rfl, ?_, rfl, rfl, rfl, rfl⟩
  show (1 : ℚ) - 0 = 1
  norm_num

/-! ## Claim C8 -/

/-- The clue shapes `check_clue`'s relation match special-cases away from the
generic evaluation (the arms that return `false` outright, plus the
`subject = object` arms of `NotOpposite` and `AllInRange`): everywhere else
the generator's arm and the filter's arm run the identical algorithm. -/
def clueSpecialCased (subject object : SectorType) (conn : ClueConnection) : Bool :=
  match conn with
  | ClueConnection.AllAdjacent =>
    (subject == SectorType.Comet && object == SectorType.Comet) ||
      (subject == SectorType.Asteroid && object == SectorType.Asteroid) ||
      (subject == SectorType.Nebula && object == SectorType.Space)
  | ClueConnection.OneAdjacent =>
    subject == object || (subject == SectorType.Nebula && object == SectorType.Space)
  | ClueConnection.NotAdjacent =>
    subject == object || (subject == SectorType.Nebula && object == SectorType.Space) ||
      (subject == SectorType.X && object == SectorType.DwarfPlanet)
  | ClueConnection.OneOpposite => false
  | ClueConnection.NotOpposite => subject == object
  | ClueConnection.AllInRange _ =>
    subject == object || (subject == SectorType.Nebula && object == SectorType.Space)
  | ClueConnection.NotInRange _ => subject == object

/-- C8 (amended): for every clue outside the generator's special-cased arms
(`clueSpecialCased … = false`) the Constraint Filter's Research predicate
returns, on every candidate layout, the same boolean as the relation
evaluation `check_clue` performs during generation — the two run the
identical algorithm there. Inside the special-cased arms the generator's
code path differs from the filter's, and on at least one of them the two
genuinely disagree: see the counterexample. -/
theorem research_matches_generator (ss : Sectors) (clue : Clue)
    (h : clueSpecialCased clue.subject clue.object clue.conn = false) :
    researchCheck ss clue = checkClueRelation ss clue.subject clue.object clue.conn := by
  cases hc : clue.conn with
  | AllAdjacent =>
    have hcc : ¬(clue.subject = SectorType.Comet ∧ clue.object = SectorType.Comet) := by
      rintro ⟨a, b⟩
      rw [hc] at h
      simp [clueSpecialCased, a, b] at h
    have haa : ¬((clue.subject = SectorType.Asteroid ∧ clue.object = SectorType.Asteroid)
        ∨ (clue.subject = SectorType.Nebula ∧ clue.object = SectorType.Space)) := by
      rintro (⟨a, b⟩ | ⟨a, b⟩) <;> (rw [hc] at h; simp [clueSpecialCased, a, b] at h)
    unfold researchCheck checkClueRelation
    rw [hc]
    dsimp only
    rw [if_neg hcc, if_neg haa]
  | OneAdjacent =>
    have hso : clue.subject ≠ clue.object := by
      intro e
      rw [hc] at h
      simp [clueSpecialCased, e] at h
    have hns : ¬(clue.subject = SectorType.Nebula ∧ clue.object = SectorType.Space) := by
      rintro ⟨a, b⟩
      rw [hc] at h
      simp [clueSpecialCased, a, b] at h
    unfold researchCheck checkClueRelation
    rw [hc]
    dsimp only
    rw [if_neg hso, if_neg hns]
  | NotAdjacent =>
    have hso : clue.subject ≠ clue.object := by
      intro e
      rw [hc] at h
      simp [clueSpecialCased, e] at h
    have hns : ¬(clue.subject = SectorType.Nebula ∧ clue.object = SectorType.Space) := by
      rintro ⟨a, b⟩
      rw [hc] at h
      simp [clueSpecialCased, a, b] at h
    have hxd : ¬(clue.subject = SectorType.X ∧ clue.object = SectorType.DwarfPlanet) := by
      rintro ⟨a, b⟩
      rw [hc] at h
      simp [clueSpecialCased, a, b] at h
    unfold researchCheck checkClueRelation
    rw [hc]
    dsimp only
    rw [if_neg hso, if_neg hns, if_neg hxd]
  | OneOpposite =>
    unfold researchCheck checkClueRelation
    rw [hc]
  | NotOpposite =>
    have hso : clue.subject ≠ clue.object := by
      intro e
      rw [hc] at h
      simp [clueSpecialCased, e] at h
    have hbne : (clue.subject != clue.object) = true := by
      simp [bne_iff_ne, hso]
    unfold researchCheck checkClueRelation
    rw [hc]
    dsimp only
    rw [hbne, Bool.true_and]
  | AllInRange range =>
    have hso : clue.subject ≠ clue.object := by
      intro e
      rw [hc] at h
      simp [clueSpecialCased, e] at h
    have hns : ¬(clue.subject = SectorType.Nebula ∧ clue.object = SectorType.Space) := by
      rintro ⟨a, b⟩
      rw [hc] at h
      simp [clueSpecialCased, a, b] at h
    unfold researchCheck checkClueRelation
    rw [hc]
    dsimp only
    rw [if_neg hso, if_neg hns]
  | NotInRange range =>
    have hso : clue.subject ≠ clue.object := by
      intro e
      rw [hc] at h
      simp [clueSpecialCased, e] at h
    unfold researchCheck checkClueRelation
    rw [hc]
    dsimp only
    rw [if_neg hso]

/-- Witness for C8 at concrete admissible clues on `w0`: the `OneAdjacent`
clue `(Comet, Asteroid)` and the `OneOpposite` clue `(Nebula, Nebula)` —
the latter has `subject = object` yet is not special-cased. -/
theorem research_matches_generator_witness :
    (researchCheck w0
          ⟨ClueEnum.A, SectorType.Comet, SectorType.Asteroid, ClueConnection.OneAdjacent⟩
        = checkClueRelation w0 SectorType.Comet SectorType.Asteroid
            ClueConnection.OneAdjacent)
      ∧ (researchCheck w0
            ⟨ClueEnum.B, SectorType.Nebula, SectorType.Nebula, ClueConnection.OneOpposite⟩
          = checkClueRelation w0 SectorType.Nebula SectorType.Nebula
              ClueConnection.OneOpposite) :=
  ⟨research_matches_generator w0
      ⟨ClueEnum.A, SectorType.Comet, SectorType.Asteroid, ClueConnection.OneAdjacent⟩
      (by decide),
    research_matches_generator w0
      ⟨ClueEnum.B, SectorType.Nebula, SectorType.Nebula, ClueConnection.OneOpposite⟩
      (by decide)⟩

/-- Counterexample to C8 as stated: for the special-cased clue "every Nebula
is adjacent to a Space" the filter evaluates the relation on the candidate
(`true` on `w0`) while the generator's `AllAdjacent (Nebula, Space)` arm
returns `false` unconditionally, so the two differ. -/
theorem research_matches_generator_counterexample :
    researchCheck w0
        ⟨ClueEnum.A, SectorType.Nebula, SectorType.Space, ClueConnection.AllAdjacent⟩ = true
      ∧ checkClueRelation w0 SectorType.Nebula SectorType.Space
          ClueConnection.AllAdjacent = false := by
  exact ⟨by decide, by decide⟩

/-! ## Claim C2 -/

/-- An (operation, result) pair whose result was computed from the true
layout: Survey counts the arc on the truth, Target reports the truth's type
(X as Space), Research returns a clue that holds on the truth (in the
predicate semantics of §4.4 / `filter_op`), Locate reports the truth of the
probe; the publish pairs carry no layout information. -/
inductive TruthfulPair (truth : Sectors) : Operation → OperationResult → Prop
  | survey (op : SurveyOperatoin) :
      TruthfulPair truth (Operation.Survey op)
        (OperationResult.Survey (truth.get_range_type_cnt op.start op.ed op.sector_type))
  | target (idx : Nat) :
      TruthfulPair truth (Operation.Target ⟨idx⟩)
        (OperationResult.Target (truth.target_sector idx))
  | research (ro : ResearchOperation) (clue : Clue) :
      researchCheck truth clue = true →
      TruthfulPair truth (Operation.Research ro) (OperationResult.Research clue)
  | locate (lop : LocateOperation) :
      TruthfulPair truth (Operation.Locate lop)
        (OperationResult.Locate
          (truth.locate_x lop.index lop.pre_sector_type lop.next_sector_type))
  | readyPublish (s : List SectorType) (n : Nat) :
      TruthfulPair truth (Operation.ReadyPublish s) (OperationResult.ReadyPublish n)
  | doPublish (i : Nat) (t : SectorType) (p : Nat × SectorType) :
      TruthfulPair truth (Operation.DoPublish i t) (OperationResult.DoPublish p)

/-- A token snapshot truthful for the true layout: a placed, type-revealed
token carries the wrong-guess flag (`meeting_index = 4`) exactly when its
type differs from the truth at its sector. -/
def TruthfulToken (truth : Sectors) (t : Token) : Prop :=
  t.placed = true → t.secret.type.isSome = true →
    ((t.secret.meeting_index == 4) = true ↔ (truth.at t.secret.sector_index).type ≠ t.type)

/-- The true layout passes the token predicate of any truthful token. -/
theorem filter_token_truth {truth : Sectors} {t : Token} (h : TruthfulToken truth t) :
    filter_token truth t = true := by
  unfold filter_token
  cases hp : t.placed with
  | false => rfl
  | true =>
    simp only [Bool.not_true, Bool.false_eq_true, if_false]
    cases hn : t.secret.type.isNone with
    | true => simp
    | false =>
      have hs : t.secret.type.isSome = true := by
        cases htt : t.secret.type
        · rw [htt] at hn
          cases hn
        · rfl
      have hiff := h hp hs
      simp only [hn, Bool.false_eq_true, if_false]
      by_cases h4 : (t.secret.meeting_index == 4) = true
      · simp only [h4, if_true]
        have hne := hiff.mp h4
        simpa [bne_iff_ne] using hne
      · have h4' : (t.secret.meeting_index == 4) = false := by
          cases hmi : (t.secret.meeting_index == 4)
          · rfl
          · exact absurd hmi h4
        simp only [h4', Bool.false_eq_true, if_false]
        have heq : (truth.at t.secret.sector_index).type = t.type := by
          by_contra hne
          exact h4 (hiff.mpr hne)
        simp [heq]

/-- The true layout passes the predicate of any truthful pair. -/
theorem filter_op_truth {truth : Sectors} {op : Operation} {r : OperationResult}
    (h : TruthfulPair truth op r) : filter_op truth op r = true := by
  cases h with
  | survey op => simp [filter_op]
  | target idx =>
    unfold filter_op Sectors.target_sector
    cases ht : (truth.at idx).type <;> simp [ht]
  | research ro clue hc => exact hc
  | locate lop =>
    unfold filter_op
    cases hb : truth.locate_x lop.index lop.pre_sector_type lop.next_sector_type with
    | false => rfl
    | true =>
      unfold Sectors.locate_x at hb
      simpa using hb
  | readyPublish s n => rfl
  | doPublish i t p => rfl

/-- One call to the filter: either an operation-result pair or a fresh token
snapshot. -/
inductive Event
  | op (o : Operation) (r : OperationResult)
  | tokens (ts : List Token)

/-- Fold a sequence of calls over a filter. -/
def runEvents (cf : ChoiceFilter) : List Event → ChoiceFilter
  | [] => cf
  | Event.op o r :: rest => runEvents (cf.add_operation o r) rest
  | Event.tokens ts :: rest => runEvents (cf.update_tokens ts) rest

/-- Truthfulness of one call for a given true layout. -/
def TruthfulEvent (truth : Sectors) : Event → Prop
  | Event.op o r => TruthfulPair truth o r
  | Event.tokens ts => ∀ t ∈ ts, TruthfulToken truth t

/-- Invariant tying a filter state to the true layout: the truth is in the
enumeration for the board, every buffered pair and cached token is truthful,
and, once initialized, the truth is among the candidates. -/
def GoodState (truth : Sectors) (cf : ChoiceFilter) : Prop :=
  truth ∈ gen_sec cf.map_type
    ∧ (∀ p ∈ cf.ops, TruthfulPair truth p.1 p.2)
    ∧ (∀ t ∈ cf.tokens, TruthfulToken truth t)
    ∧ (cf.initialized = true → truth ∈ cf.all)

/-- `add_operation` preserves `GoodState` for truthful pairs. -/
theorem goodState_add {truth : Sectors} {cf : ChoiceFilter} (hg : GoodState truth cf)
    {op : Operation} {r : OperationResult} (hp : TruthfulPair truth op r) :
    GoodState truth (cf.add_operation op r) := by
  obtain ⟨hmem, hops, htoks, hinit⟩ := hg
  have hopall : ∀ p ∈ cf.ops ++ [(op, r)], TruthfulPair truth p.1 p.2 := by
    intro p hp'
    rcases List.mem_append.mp hp' with h | h
    · exact hops p h
    · rcases List.mem_singleton.mp h with rfl
      exact hp
  cases hi : cf.initialized with
  | true =>
    unfold ChoiceFilter.add_operation
    rw [hi]
    refine ⟨hmem, hopall, htoks, fun _ => ?_⟩
    exact List.mem_filter.mpr ⟨hinit hi, filter_op_truth hp⟩
  | false =>
    have hrw : cf.add_operation op r
        = addOpAttempt { cf with ops := cf.ops ++ [(op, r)] } := by
      unfold ChoiceFilter.add_operation
      rw [hi]
      rfl
    rw [hrw]
    unfold addOpAttempt
    by_cases hskip : skipAttempt { cf with ops := cf.ops ++ [(op, r)] } = true
    · rw [if_pos hskip]
      exact ⟨hmem, hopall, htoks, fun hbad => absurd (hi.symm.trans hbad) (by decide)⟩
    · rw [if_neg (by simpa using hskip)]
      simp only []
      split
      · refine ⟨hmem, hopall, htoks, fun _ => ?_⟩
        refine List.mem_filter.mpr ⟨hmem, ?_⟩
        have h1 : ((cf.ops ++ [(op, r)]).all (fun p => filter_op truth p.1 p.2)) = true := by
          rw [List.all_eq_true]
          intro p hp'
          exact filter_op_truth (hopall p hp')
        have h2 : (cf.tokens.all (fun t => filter_token truth t)) = true := by
          rw [List.all_eq_true]
          intro t ht
          exact filter_token_truth (htoks t ht)
        rw [h1, h2]
        rfl
      · exact ⟨hmem, hopall, htoks, fun hbad => absurd (hi.symm.trans hbad) (by decide)⟩

/-- `update_tokens` preserves `GoodState` for truthful snapshots. -/
theorem goodState_upd {truth : Sectors} {cf : ChoiceFilter} (hg : GoodState truth cf)
    {ts : List Token} (ht : ∀ t ∈ ts, TruthfulToken truth t) :
    GoodState truth (cf.update_tokens ts) := by
  obtain ⟨hmem, hops, htoks, hinit⟩ := hg
  unfold ChoiceFilter.update_tokens
  cases hi : cf.initialized with
  | false =>
    simp only [Bool.not_false, if_true]
    exact ⟨hmem, hops, ht, fun hbad => by simp at hbad⟩
  | true =>
    simp only [Bool.not_true, Bool.false_eq_true, if_false]
    refine ⟨hmem, hops, htoks, fun _ => ?_⟩
    refine List.mem_filter.mpr ⟨hinit hi, ?_⟩
    rw [List.all_eq_true]
    intro t htm
    exact filter_token_truth (ht t htm)

/-- `GoodState` is preserved by any truthful run. -/
theorem goodState_run {truth : Sectors} (events : List Event) {cf : ChoiceFilter}
    (hg : GoodState truth cf) (he : ∀ ev ∈ events, TruthfulEvent truth ev) :
    GoodState truth (runEvents cf events) := by
  induction events generalizing cf with
  | nil => exact hg
  | cons ev rest ih =>
    have hev := he ev (List.mem_cons_self ev rest)
    have hrest := fun e h => he e (List.mem_cons_of_mem ev h)
    cases ev with
    | op o r => exact ih (goodState_add hg hev) hrest
    | tokens ts => exact ih (goodState_upd hg hev) hrest

/-- C2: a true layout whose operation results and token snapshots are
truthful for it is never removed — after any truthful sequence of
`add_operation` / `update_tokens` calls starting from a fresh filter, either
the filter is still uninitialized, or the truth is in its CandidateSet (in
particular it passes the materialization filter). -/
theorem true_layout_never_removed (mt : MapType) (isBot : Bool) (events : List Event)
    (truth : Sectors) (hmem : truth ∈ gen_sec mt)
    (htruthful : ∀ ev ∈ events, TruthfulEvent truth ev) :
    truth ∈ (runEvents (ChoiceFilter.new mt isBot) events).all
      ∨ (runEvents (ChoiceFilter.new mt isBot) events).initialized = false := by
  have hg0 : GoodState truth (ChoiceFilter.new mt isBot) := by
    refine ⟨hmem, ?_, ?_, ?_⟩
    · intro p hp
      cases hp
    · intro t ht
      cases ht
    · intro hbad
      cases hbad
  have hg := goodState_run events hg0 htruthful
  cases hi : (runEvents (ChoiceFilter.new mt isBot) events).initialized with
  | true => exact Or.inl (hg.2.2.2 hi)
  | false => exact Or.inr rfl

/-- Witness for C2: a truthful Survey on `w0` (the arc 1–4 contains exactly
one Comet) followed by a truthful empty token snapshot. -/
theorem true_layout_never_removed_witness :
    w0 ∈ (runEvents (ChoiceFilter.new MapType.Standard false)
        [Event.op (Operation.Survey ⟨SectorType.Comet, 1, 4⟩) (OperationResult.Survey 1),
         Event.tokens []]).all
      ∨ (runEvents (ChoiceFilter.new MapType.Standard false)
          [Event.op (Operation.Survey ⟨SectorType.Comet, 1, 4⟩) (OperationResult.Survey 1),
           Event.tokens []]).initialized = false :=
  true_layout_never_removed MapType.Standard false
    [Event.op (Operation.Survey ⟨SectorType.Comet, 1, 4⟩) (OperationResult.Survey 1),
     Event.tokens []] w0 w0_mem
    (by
      intro ev hev
      rcases List.mem_cons.mp hev with rfl | hev
      · exact @TruthfulPair.survey w0 ⟨SectorType.Comet, 1, 4⟩
      · rcases List.mem_cons.mp hev with rfl | hev
        · exact fun t ht => absurd ht (List.not_mem_nil t)
        · cases hev)

/-! ## Claims C9 and C7: properties of the generation loops -/

/-- A type drawn with `allow_space = false, allow_x = false` is neither. -/
theorem getRandType_ne_space_x :
    ∀ {rng rng' : Rng} {t : SectorType}, getRandType false false rng = some (t, rng') →
      t ≠ SectorType.Space ∧ t ≠ SectorType.X := by
  intro rng
  induction rng with
  | nil => intro rng' t h; cases h
  | cons k rest ih =>
    intro rng' t h
    unfold getRandType at h
    simp only [Bool.not_false, Bool.true_and] at h
    by_cases hs : (randSectorType k == SectorType.Space) = true
    · rw [if_pos hs] at h
      exact ih h
    · rw [if_neg hs] at h
      by_cases hx : (randSectorType k == SectorType.X) = true
      · rw [if_pos hx] at h
        exact ih h
      · rw [if_neg hx] at h
        obtain ⟨rfl, rfl⟩ : randSectorType k = t ∧ rest = rng' := by
          cases h
          exact ⟨rfl, rfl⟩
        constructor
        · intro he
          exact hs (by rw [he]; rfl)
        · intro he
          exact hx (by rw [he]; rfl)

/-- A type drawn with `allow_x = false` is not `X`. -/
theorem getRandType_ne_x :
    ∀ {rng rng' : Rng} {t : SectorType}, getRandType true false rng = some (t, rng') →
      t ≠ SectorType.X := by
  intro rng
  induction rng with
  | nil => intro rng' t h; cases h
  | cons k rest ih =>
    intro rng' t h
    unfold getRandType at h
    simp only [Bool.not_true, Bool.false_and, Bool.false_eq_true, if_false, Bool.not_false,
      Bool.true_and] at h
    by_cases hx : (randSectorType k == SectorType.X) = true
    · rw [if_pos hx] at h
      exact ih h
    · rw [if_neg hx] at h
      obtain ⟨rfl, rfl⟩ : randSectorType k = t ∧ rest = rng' := by
        cases h
        exact ⟨rfl, rfl⟩
      intro he
      exact hx (by rw [he]; rfl)

/-- A candidate accepted by `check_clue` has a secret distinct from every
already-accepted clue's secret. -/
theorem checkClue_secret_distinct {ss : Sectors} {clues : List Clue}
    {s o : SectorType} {conn : ClueConnection} (h : checkClue ss clues s o conn = true) :
    ∀ c ∈ clues, c.as_secret ≠ trySecret s o := by
  intro c hc heq
  have hcond : (clues.any (fun clue => clue.as_secret == trySecret s o)) = true :=
    List.any_eq_true.mpr ⟨c, hc, by rw [heq]; simp⟩
  unfold checkClue at h
  rw [if_pos hcond] at h
  cases h

/-- The secret of a freshly built clue is its candidate secret. -/
theorem mk_as_secret (i : ClueEnum) (s o : SectorType) (conn : ClueConnection) :
    (Clue.mk i s o conn).as_secret = trySecret s o := rfl

/-- The first component of a clue's secret is its subject. -/
theorem as_secret_fst (c : Clue) : c.as_secret.1 = c.subject := by
  unfold Clue.as_secret
  split <;> rfl

/-- The pairwise-distinct-secrets relation used throughout. -/
def DistinctSecrets (l : List Clue) : Prop :=
  List.Pairwise (fun c1 c2 => c1.as_secret ≠ c2.as_secret) l

/-- Invariant of the general-clue loop: from at most 6 accepted clues with
pairwise distinct secrets and non-`X`, non-`Space` subjects, a successful run
ends with exactly 6 such clues. -/
theorem genGeneral_inv (ss : Sectors) (mt : MapType) :
    ∀ (fuel : Nat) (res : List Clue) (rng : Rng) (res' : List Clue) (rng' : Rng),
      genGeneral ss mt fuel res rng = some (res', rng') →
      res.length ≤ 6 → DistinctSecrets res →
      (∀ c ∈ res, c.subject ≠ SectorType.X ∧ c.subject ≠ SectorType.Space) →
      res'.length = 6 ∧ DistinctSecrets res' ∧
        (∀ c ∈ res', c.subject ≠ SectorType.X ∧ c.subject ≠ SectorType.Space) := by
  intro fuel
  induction fuel with
  | zero => intro res rng res' rng' h; cases h
  | succ fuel ih =>
    intro res rng res' rng' h hlen hdist hsub
    unfold genGeneral at h
    by_cases h6 : 6 ≤ res.length
    · rw [if_pos h6] at h
      obtain ⟨rfl, rfl⟩ : res = res' ∧ rng = rng' := by
        cases h
        exact ⟨rfl, rfl⟩
      exact ⟨Nat.le_antisymm hlen h6, hdist, hsub⟩
    · rw [if_neg h6] at h
      cases hst : getRandType false false rng with
      | none => rw [hst] at h; cases h
      | some p =>
        obtain ⟨subject, rng1⟩ := p
        simp only [hst] at h
        cases hot : getRandType true false rng1 with
        | none => simp only [hot] at h; cases h
        | some q =>
          obtain ⟨object, rng2⟩ := q
          simp only [hot] at h
          cases hcn : getRandConn mt false rng2 with
          | none => simp only [hcn] at h; cases h
          | some w =>
            obtain ⟨conn, rng3⟩ := w
            simp only [hcn] at h
            by_cases hchk : checkClue ss res subject object conn = true
            · rw [if_pos hchk] at h
              have hsx := getRandType_ne_space_x hst
              refine ih _ _ _ _ h ?_ ?_ ?_
              · rw [List.length_append, List.length_singleton]
                omega
              · unfold DistinctSecrets
                rw [List.pairwise_append]
                refine ⟨hdist, List.pairwise_singleton _ _, ?_⟩
                intro a ha b hb
                rcases List.mem_singleton.mp hb with rfl
                rw [mk_as_secret]
                exact checkClue_secret_distinct hchk a ha
              · intro c hc
                rcases List.mem_append.mp hc with hc | hc
                · exact hsub c hc
                · rcases List.mem_singleton.mp hc with rfl
                  exact ⟨hsx.2, hsx.1⟩
            · rw [if_neg hchk] at h
              exact ih _ _ _ _ h hlen hdist hsub

/-- Invariant of the inner locate-clue loop: from at most `xclue_points` many
accepted X clues with distinct secrets and subject `X`, a successful run ends
with exactly `xclue_points` many such clues. -/
theorem genXres_inv (ss : Sectors) (mt : MapType) :
    ∀ (fuel : Nat) (xres : List Clue) (rng : Rng) (xres' : List Clue) (rng' : Rng),
      genXres ss mt fuel xres rng = some (xres', rng') →
      xres.length ≤ mt.xclue_points.length → DistinctSecrets xres →
      (∀ c ∈ xres, c.subject = SectorType.X) →
      xres'.length = mt.xclue_points.length ∧ DistinctSecrets xres' ∧
        (∀ c ∈ xres', c.subject = SectorType.X) := by
  intro fuel
  induction fuel with
  | zero => intro xres rng xres' rng' h; cases h
  | succ fuel ih =>
    intro xres rng xres' rng' h hlen hdist hsub
    unfold genXres at h
    by_cases h6 : mt.xclue_points.length ≤ xres.length
    · rw [if_pos h6] at h
      obtain ⟨rfl, rfl⟩ : xres = xres' ∧ rng = rng' := by
        cases h
        exact ⟨rfl, rfl⟩
      exact ⟨Nat.le_antisymm hlen h6, hdist, hsub⟩
    · rw [if_neg h6] at h
      cases hot : getRandType true false rng with
      | none => rw [hot] at h; cases h
      | some q =>
        obtain ⟨object, rng2⟩ := q
        simp only [hot] at h
        cases hcn : getRandConn mt true rng2 with
        | none => simp only [hcn] at h; cases h
        | some w =>
          obtain ⟨conn, rng3⟩ := w
          simp only [hcn] at h
          by_cases hchk : checkClue ss xres SectorType.X object conn = true
          · rw [if_pos hchk] at h
            refine ih _ _ _ _ h ?_ ?_ ?_
            · rw [List.length_append, List.length_singleton]
              omega
            · unfold DistinctSecrets
              rw [List.pairwise_append]
              refine ⟨hdist, List.pairwise_singleton _ _, ?_⟩
              intro a ha b hb
              rcases List.mem_singleton.mp hb with rfl
              rw [mk_as_secret]
              exact checkClue_secret_distinct hchk a ha
            · intro c hc
              rcases List.mem_append.mp hc with hc | hc
              · exact hsub c hc
              · rcases List.mem_singleton.mp hc with rfl
                rfl
          · rw [if_neg hchk] at h
            exact ih _ _ _ _ h hlen hdist hsub

/-- A successful exit of the outer locate-clue loop yields a complete,
distinct-secret, `X`-subject locate set that (with the defaults) pins X
uniquely. -/
theorem xOuter_ok (ss : Sectors) (mt : MapType) (res : List Clue) :
    ∀ (fuel cnt : Nat) (xres : List Clue) (hist : List (List Clue)) (rng : Rng)
      (xr : List Clue) (hist' : List (List Clue)),
      xOuter ss mt res fuel cnt xres hist rng = some (Except.ok xr, hist') →
      (xres = [] ∨ (xres.length = mt.xclue_points.length ∧ DistinctSecrets xres ∧
        ∀ c ∈ xres, c.subject = SectorType.X)) →
      xr.length = mt.xclue_points.length ∧ DistinctSecrets xr ∧
        (∀ c ∈ xr, c.subject = SectorType.X) ∧ xr ≠ [] ∧
        check_x_space_only res xr ss = [] := by
  intro fuel
  induction fuel with
  | zero => intro cnt xres hist rng xr hist' h _; cases h
  | succ fuel ih =>
    intro cnt xres hist rng xr hist' h hq
    unfold xOuter at h
    by_cases hcond : (!xres.isEmpty && (check_x_space_only res xres ss).isEmpty) = true
    · rw [if_pos hcond] at h
      obtain ⟨rfl, rfl⟩ : xres = xr ∧ hist = hist' := by
        cases h
        exact ⟨rfl, rfl⟩
      rw [Bool.and_eq_true] at hcond
      have hne : xres ≠ [] := by
        intro he
        rw [he] at hcond
        cases hcond.1
      have hchk : check_x_space_only res xres ss = [] := by
        have h2 := hcond.2
        rwa [List.isEmpty_iff] at h2
      rcases hq with rfl | hq
      · exact absurd rfl hne
      · exact ⟨hq.1, hq.2.1, hq.2.2, hne, hchk⟩
    · rw [if_neg hcond] at h
      cases hgen : genXres ss mt (rng.length + 1) [] rng with
      | none => rw [hgen] at h; cases h
      | some p =>
        obtain ⟨xres2, rng2⟩ := p
        simp only [hgen] at h
        by_cases hcnt : 100 < cnt + 1
        · rw [if_pos hcnt] at h
          cases h
        · rw [if_neg hcnt] at h
          have hq2 := genXres_inv ss mt (rng.length + 1) [] rng xres2 rng2 hgen
            (by simp) List.Pairwise.nil (by intro c hc; cases hc)
          exact ih _ _ _ _ _ _ h (Or.inr hq2)

/-- Every board asks for at least one locate clue. -/
theorem xclue_points_pos (mt : MapType) : 1 ≤ mt.xclue_points.length := by
  cases mt <;> decide

/-- A failing exit of the outer locate-clue loop happens only after exactly
101 attempts whose first 100 locate sets each failed the uniqueness check
(the 101st set is produced and then discarded unchecked). -/
theorem xOuter_err (ss : Sectors) (mt : MapType) (res : List Clue) :
    ∀ (fuel cnt : Nat) (xres : List Clue) (hist : List (List Clue)) (rng : Rng)
      (hist' : List (List Clue)),
      xOuter ss mt res fuel cnt xres hist rng = some (Except.error (), hist') →
      cnt = hist.length → cnt ≤ 100 →
      (∀ xh ∈ hist.dropLast, check_x_space_only res xh ss ≠ []) →
      (hist ≠ [] → hist.getLast? = some xres ∧ xres ≠ []) →
      (hist = [] → xres = []) →
      hist'.length = 101 ∧ ∀ xh ∈ hist'.dropLast, check_x_space_only res xh ss ≠ [] := by
  intro fuel
  induction fuel with
  | zero => intro cnt xres hist rng hist' h _ _ _ _ _; cases h
  | succ fuel ih =>
    intro cnt xres hist rng hist' h hcnt hle hfail hlast hnil
    unfold xOuter at h
    by_cases hcond : (!xres.isEmpty && (check_x_space_only res xres ss).isEmpty) = true
    · rw [if_pos hcond] at h
      cases h
    · rw [if_neg hcond] at h
      cases hgen : genXres ss mt (rng.length + 1) [] rng with
      | none => rw [hgen] at h; cases h
      | some p =>
        obtain ⟨xres2, rng2⟩ := p
        simp only [hgen] at h
        have hq2 := genXres_inv ss mt (rng.length + 1) [] rng xres2 rng2 hgen
          (by simp) List.Pairwise.nil (by intro c hc; cases hc)
        have hne2 : xres2 ≠ [] := by
          intro he
          have h1 := hq2.1
          rw [he, List.length_nil] at h1
          have h2 := xclue_points_pos mt
          omega
        have hfailall : ∀ xh ∈ hist, check_x_space_only res xh ss ≠ [] := by
          intro xh hxh
          by_cases hhist : hist = []
          · rw [hhist] at hxh
            cases hxh
          · obtain ⟨hl, hxne⟩ := hlast hhist
            have hsplit : hist.dropLast ++ [hist.getLast hhist] = hist :=
              List.dropLast_concat_getLast hhist
            have hlx : hist.getLast hhist = xres := by
              have := List.getLast?_eq_getLast hist hhist
              rw [this] at hl
              exact Option.some_injective _ hl
            rw [← hsplit] at hxh
            rcases List.mem_append.mp hxh with hmem | hmem
            · exact hfail xh hmem
            · rcases List.mem_singleton.mp hmem with rfl
              rw [hlx]
              intro hempty
              apply hcond
              rw [Bool.and_eq_true]
              constructor
              · cases hx2 : xres.isEmpty
                · rfl
                · rw [List.isEmpty_iff] at hx2
                  exact absurd hx2 hxne
              · rw [hempty]
                rfl
        by_cases hcnt1 : 100 < cnt + 1
        · rw [if_pos hcnt1] at h
          obtain ⟨rfl⟩ : hist ++ [xres2] = hist' := by
            cases h
            rfl
          constructor
          · rw [List.length_append, List.length_singleton]
            omega
          · rw [List.dropLast_concat]
            exact hfailall
        · rw [if_neg hcnt1] at h
          refine ih _ _ _ _ _ h ?_ ?_ ?_ ?_ ?_
          · rw [List.length_append, List.length_singleton]
            omega
          · omega
          · rw [List.dropLast_concat]
            exact hfailall
          · intro _
            exact ⟨List.getLast?_concat _, hne2⟩
          · intro hbad
            exact absurd hbad (by simp)

/-- Success postcondition of `generate_clues` — amended claim C7: six general
clues; `xclue_points` many locate clues; no Space position, swapped into the
X role, satisfies every general clue, every locate clue **and the two
built-in default clues**. Failure postcondition: the ghost history shows 101
attempted locate sets whose first 100 each failed the uniqueness check. -/
def GenCluesPost (ss : Sectors) (mt : MapType) (fuel : Nat) (rng : Rng) :
    Option (Except Unit (List Clue × List Clue) × List (List Clue)) → Prop
  | some (Except.ok (res, xres), _) =>
      res.length = 6 ∧ xres.length = mt.xclue_points.length ∧
        check_x_space_only res xres ss = [] ∧
        ∀ x ∈ ss.data, x.type = SectorType.Space →
          ((res ++ xres ++ defaultClues).all
              (fun clue => checkClueWithSectors clue (swapXInto ss x.index))) = false
  | some (Except.error _, hist) =>
      ∀ (res : List Clue) (rng1 : Rng), genGeneral ss mt fuel [] rng = some (res, rng1) →
        hist.length = 101 ∧ ∀ xh ∈ hist.dropLast, check_x_space_only res xh ss ≠ []
  | none => True

/-- C7 (amended): every run of `generate_clues` satisfies `GenCluesPost` —
success yields 6 general clues plus 1 (Standard) or 2 (Expert) locate clues
under which (together with the defaults) no other Space position can play the
X role; failure happens only after 100 locate-clue sets failed the
uniqueness check. -/
theorem generate_clues_spec (ss : Sectors) (mt : MapType) (fuel : Nat) (rng : Rng) :
    GenCluesPost ss mt fuel rng (generate_clues ss mt fuel rng) := by
  unfold generate_clues
  cases hg : genGeneral ss mt fuel [] rng with
  | none => exact trivial
  | some p =>
    obtain ⟨res, rng1⟩ := p
    dsimp only
    cases hx : xOuter ss mt res fuel 0 [] [] rng1 with
    | none => exact trivial
    | some q =>
      obtain ⟨exc, hist⟩ := q
      cases exc with
      | ok xr =>
        have hres := genGeneral_inv ss mt fuel [] rng res rng1 hg
          (by simp) List.Pairwise.nil (by intro c hc; cases hc)
        have hxr := xOuter_ok ss mt res fuel 0 [] [] rng1 xr hist hx (Or.inl rfl)
        refine ⟨hres.1, hxr.1, hxr.2.2.2.2, ?_⟩
        intro x hxmem hsp
        have hchk := hxr.2.2.2.2
        unfold check_x_space_only at hchk
        simp only [List.map_eq_nil_iff, List.filter_eq_nil_iff] at hchk
        have hxin : x ∈ ss.data.filter (fun s => s.type == SectorType.Space) :=
          List.mem_filter.mpr ⟨hxmem, by rw [hsp]; rfl⟩
        have hnp := hchk x hxin
        cases hall : ((res ++ xr ++ defaultClues).all
            (fun clue => checkClueWithSectors clue (swapXInto ss x.index)))
        · rfl
        · exact absurd hall hnp
      | error e =>
        intro res2 rng2 hg2
        rw [hg] at hg2
        obtain ⟨rfl, rfl⟩ : res = res2 ∧ rng1 = rng2 := by
          cases hg2
          exact ⟨rfl, rfl⟩
        obtain ⟨⟩ := e
        exact xOuter_err ss mt res fuel 0 [] [] rng1 hist hx rfl (by omega)
          (by intro xh hxh; cases hxh) (fun hbad => absurd rfl hbad) (fun _ => rfl)

/-- Postcondition for C9: all clues of a successful run, general and locate
together, have pairwise distinct normalized secret signatures. -/
def PairwiseSecretsPost :
    Option (Except Unit (List Clue × List Clue) × List (List Clue)) → Prop
  | some (Except.ok (res, xres), _) => DistinctSecrets (res ++ xres)
  | _ => True

/-- C9: no two clues returned by one successful `generate_clues` call — the
six general clues and the locate clues, across both groups — share a
normalized secret signature. -/
theorem clue_secrets_distinct (ss : Sectors) (mt : MapType) (fuel : Nat) (rng : Rng) :
    PairwiseSecretsPost (generate_clues ss mt fuel rng) := by
  unfold generate_clues
  cases hg : genGeneral ss mt fuel [] rng with
  | none => exact trivial
  | some p =>
    obtain ⟨res, rng1⟩ := p
    dsimp only
    cases hx : xOuter ss mt res fuel 0 [] [] rng1 with
    | none => exact trivial
    | some q =>
      obtain ⟨exc, hist⟩ := q
      cases exc with
      | error e => exact trivial
      | ok xr =>
        have hres := genGeneral_inv ss mt fuel [] rng res rng1 hg
          (by simp) List.Pairwise.nil (by intro c hc; cases hc)
        have hxr := xOuter_ok ss mt res fuel 0 [] [] rng1 xr hist hx (Or.inl rfl)
        show DistinctSecrets (res ++ xr)
        unfold DistinctSecrets
        rw [List.pairwise_append]
        refine ⟨hres.2.1, hxr.2.1, ?_⟩
        intro a ha b hb heq
        have ha' : a.as_secret.1 ≠ SectorType.X := by
          rw [as_secret_fst]
          exact (hres.2.2 a ha).1
        have hb' : b.as_secret.1 = SectorType.X := by
          rw [as_secret_fst]
          exact hxr.2.2.1 b hb
        rw [heq, hb'] at ha'
        exact ha' rfl


/-! ## Claim C1: the enumerator's structural invariants -/

/-- The fixed per-type sector counts of §3 (Space and X fill the remainder:
12 = 2+4+1+2+1+2 and 18 = 2+4+4+2+1+5). -/
def typeCount (mt : MapType) : SectorType → Nat
  | SectorType.Comet => 2
  | SectorType.Asteroid => 4
  | SectorType.DwarfPlanet => match mt with | MapType.Standard => 1 | MapType.Expert => 4
  | SectorType.Nebula => 2
  | SectorType.X => 1
  | SectorType.Space => match mt with | MapType.Standard => 2 | MapType.Expert => 5

/-- The §3 structural invariants of a layout, expressed through the layout's
own primitives. -/
def layoutInv (mt : MapType) (ss : Sectors) : Prop :=
  (∀ t, (ss.data.filter (fun s => s.type == t)).length = typeCount mt t)
    ∧ (∀ s ∈ ss.data, s.type = SectorType.Comet → Nat.Prime s.index)
    ∧ (∀ s ∈ ss.data, s.type = SectorType.Asteroid →
        ((ss.prev s.index).type = SectorType.Asteroid ∨
          (ss.next s.index).type = SectorType.Asteroid))
    ∧ (∀ s ∈ ss.data, s.type = SectorType.DwarfPlanet →
        ((ss.prev s.index).type ≠ SectorType.X ∧ (ss.next s.index).type ≠ SectorType.X))
    ∧ (mt = MapType.Expert → ∃ start, start < 18 ∧
        (∀ s ∈ ss.data, s.type = SectorType.DwarfPlanet →
          ∃ k, k ≤ 5 ∧ s.index = (start + k) % 18 + 1)
          ∧ (ss.at (start + 1)).type = SectorType.DwarfPlanet
          ∧ (ss.at ((start + 5) % 18 + 1)).type = SectorType.DwarfPlanet)
    ∧ (∀ s ∈ ss.data, s.type = SectorType.Nebula →
        ((ss.prev s.index).type = SectorType.Space ∨
          (ss.next s.index).type = SectorType.Space))

/-- Facts about a DwarfPlanet stage output. -/
theorem generate_c_spec {mt : MapType} {c : List Nat} (hc : c ∈ generate_c mt) :
    c.length = typeCount mt SectorType.DwarfPlanet ∧ c.Nodup ∧
      ∀ p ∈ c, p < mt.sector_count := by
  cases mt with
  | Standard =>
    unfold generate_c at hc
    simp only [List.mem_map, List.mem_range] at hc
    obtain ⟨i, hi, rfl⟩ := hc
    exact ⟨rfl, List.nodup_singleton i,
      by intro p hp; rcases List.mem_singleton.mp hp with rfl; exact hi⟩
  | Expert =>
    unfold generate_c at hc
    simp only [MapType.sector_count] at hc ⊢
    simp only [List.mem_flatMap, List.mem_map, List.mem_range] at hc
    obtain ⟨start, hstart, comb, hcomb, rfl⟩ := hc
    rw [List.mem_sublistsLen] at hcomb
    obtain ⟨hsub, hlen2⟩ := hcomb
    have hmem : ∀ p ∈ comb, ∃ k, 1 ≤ k ∧ k ≤ 4 ∧ p = (start + k) % 18 := by
      intro p hp
      have := hsub.subset hp
      simp only [List.mem_cons, List.not_mem_nil, or_false] at this
      rcases this with rfl | rfl | rfl | rfl
      · exact ⟨1, by omega, by omega, rfl⟩
      · exact ⟨2, by omega, by omega, rfl⟩
      · exact ⟨3, by omega, by omega, rfl⟩
      · exact ⟨4, by omega, by omega, rfl⟩
    have hmids : List.Nodup [(start + 1) % 18, (start + 2) % 18, (start + 3) % 18,
        (start + 4) % 18] := by
      simp only [List.nodup_cons, List.mem_cons, List.not_mem_nil, List.nodup_nil, or_false,
        and_true, not_or, not_false_iff]
      omega
    refine ⟨by simp [typeCount, hlen2], ?_, ?_⟩
    · have hcombnd : comb.Nodup := hsub.nodup hmids
      simp only [List.nodup_cons]
      refine ⟨?_, ?_, hcombnd⟩
      · simp only [List.mem_cons]
        rintro (he | hm)
        · omega
        · obtain ⟨k, hk1, hk4, he⟩ := hmem _ hm
          omega
      · intro hm
        obtain ⟨k, hk1, hk4, he⟩ := hmem _ hm
        omega
    · intro p hp
      simp only [List.mem_cons] at hp
      rcases hp with rfl | rfl | hm
      · exact hstart
      · omega
      · obtain ⟨k, _, _, rfl⟩ := hmem _ hm
        omega

/-- Facts about an X stage output. -/
theorem generate_f_spec {mt : MapType} {c : List Nat} {f : Nat}
    (hf : f ∈ generate_f c mt) :
    f < mt.sector_count ∧ f ∉ c ∧
      ∀ p ∈ c, (p + mt.sector_count - 1) % mt.sector_count ≠ f ∧
        (p + 1) % mt.sector_count ≠ f := by
  unfold generate_f at hf
  simp only [List.mem_filter, List.mem_range, Bool.and_eq_true, Bool.not_eq_true',
    decide_eq_false_iff_not] at hf
  obtain ⟨hlt, hnc, hex⟩ := hf
  refine ⟨hlt, hnc, ?_⟩
  intro p hp
  rw [List.any_eq_false] at hex
  have := hex p hp
  simp only [Bool.or_eq_true, beq_iff_eq, not_or] at this
  exact this

/-- The prime-position pools. -/
theorem primes_spec (mt : MapType) :
    ((match mt with
      | MapType.Standard => PRIMES_STANDARD
      | MapType.Expert => PRIMES_EXPERT).Nodup) ∧
    ∀ p ∈ (match mt with
      | MapType.Standard => PRIMES_STANDARD
      | MapType.Expert => PRIMES_EXPERT), p < mt.sector_count ∧ Nat.Prime (p + 1) := by
  cases mt <;> exact ⟨by decide, by decide⟩

/-- Facts about a Comet stage output. -/
theorem generate_a_spec {mt : MapType} {c : List Nat} {f : Nat} {a : List Nat}
    (ha : a ∈ generate_a c f mt) :
    a.length = 2 ∧ a.Nodup ∧
      ∀ p ∈ a, p < mt.sector_count ∧ Nat.Prime (p + 1) ∧ p ∉ c ∧ p ≠ f := by
  unfold generate_a at ha
  rw [List.mem_sublistsLen] at ha
  obtain ⟨hsub, hlen⟩ := ha
  have hsubset := hsub.subset
  have hnd : a.Nodup := hsub.nodup ((primes_spec mt).1.filter _)
  refine ⟨hlen, hnd, ?_⟩
  intro p hp
  have := hsubset hp
  simp only [List.mem_filter, Bool.and_eq_true, Bool.not_eq_true',
    decide_eq_false_iff_not] at this
  obtain ⟨hmem, hnc, hnf⟩ := this
  have hpr := (primes_spec mt).2 p hmem
  exact ⟨hpr.1, hpr.2, hnc, hnf⟩

/-- Facts about an Asteroid stage output. -/
theorem generate_b_spec {mt : MapType} {c : List Nat} {f : Nat} {a b : List Nat}
    (hb : b ∈ generate_b c f a mt) :
    b.length = 4 ∧ b.Nodup ∧
      (∀ p ∈ b, p < mt.sector_count ∧ p ∉ c ∧ p ∉ a ∧ p ≠ f) ∧
      ∀ p ∈ b, ((p + mt.sector_count - 1) % mt.sector_count ∈ b ∨
        (p + 1) % mt.sector_count ∈ b) := by
  unfold generate_b at hb
  simp only [List.mem_filter] at hb
  obtain ⟨hmem, hadj⟩ := hb
  rw [List.mem_sublistsLen] at hmem
  obtain ⟨hsub, hlen⟩ := hmem
  have hnd : b.Nodup := hsub.nodup ((List.nodup_range _).filter _)
  refine ⟨hlen, hnd, ?_, ?_⟩
  · intro p hp
    have := hsub.subset hp
    simp only [List.mem_filter, List.mem_range, Bool.and_eq_true, Bool.not_eq_true',
      decide_eq_false_iff_not] at this
    exact ⟨this.1, this.2.1.1, this.2.1.2, this.2.2⟩
  · intro p hp
    rw [List.all_eq_true] at hadj
    have := hadj p hp
    simp only [Bool.or_eq_true, decide_eq_true_eq] at this
    exact this

/-- Facts about a Nebula/Space split taken from the precomputed table. -/
theorem de_splits_spec {n eLen : Nat} {cb d e : List Nat}
    (h : (d, e) ∈ de_splits n eLen cb) :
    d.length = 2 ∧ d.Sublist cb ∧ e = cb.filter (fun p => !decide (p ∈ d)) ∧
      e.length = eLen ∧
      ∀ p ∈ d, ((p + n - 1) % n ∈ e ∨ (p + 1) % n ∈ e) := by
  unfold de_splits at h
  rw [List.mem_filterMap] at h
  obtain ⟨d', hd', heq⟩ := h
  rw [List.mem_sublistsLen] at hd'
  by_cases hlen : (cb.filter (fun p => !decide (p ∈ d'))).length ≠ eLen
  · rw [if_pos hlen] at heq
    cases heq
  · rw [if_neg hlen] at heq
    by_cases hval : (d'.all (fun di =>
        [(di + n - 1) % n, (di + 1) % n].any
          (fun x => decide (x ∈ cb.filter (fun p => !decide (p ∈ d')))))) = true
    · rw [if_pos hval] at heq
      obtain ⟨rfl, rfl⟩ : d' = d ∧ cb.filter (fun p => !decide (p ∈ d')) = e := by
        cases heq
        exact ⟨rfl, rfl⟩
      push_neg at hlen
      refine ⟨hd'.2, hd'.1, rfl, hlen, ?_⟩
      intro p hp
      rw [List.all_eq_true] at hval
      have := hval p hp
      simp only [List.any_eq_true, List.mem_cons, List.not_mem_nil, or_false,
        decide_eq_true_eq] at this
      obtain ⟨x, hx, hxe⟩ := this
      rcases hx with rfl | rfl
      · exact Or.inl hxe
      · exact Or.inr hxe
    · rw [if_neg hval] at heq
      cases heq

/-- The type `build_sectors` assigns to 0-based position `p`, expressed as a
decision chain over the six position groups. -/
def typeAt (a b c d e : List Nat) (f : Nat) (p : Nat) : SectorType :=
  if p ∈ a then SectorType.Comet
  else if p ∈ b then SectorType.Asteroid
  else if p ∈ c then SectorType.DwarfPlanet
  else if p ∈ d then SectorType.Nebula
  else if p ∈ e then SectorType.Space
  else SectorType.X

/-- `build_sectors` lays the groups out positionally: its data is exactly
position `p` (1-based `p+1`) carrying `typeAt … p`, for `p` ranging over the
board — provided the groups partition the board (`hperm`, `hnd`) and each
group's membership decides its type (`hA`–`hF`). -/
theorem build_sectors_eq {cnt : Nat} {c : List Nat} {f : Nat} {a b d e : List Nat}
    (hperm : (a ++ (b ++ (c ++ (d ++ (e ++ [f]))))).Perm (List.range cnt))
    (hA : ∀ p ∈ a, typeAt a b c d e f p = SectorType.Comet)
    (hB : ∀ p ∈ b, typeAt a b c d e f p = SectorType.Asteroid)
    (hC : ∀ p ∈ c, typeAt a b c d e f p = SectorType.DwarfPlanet)
    (hD : ∀ p ∈ d, typeAt a b c d e f p = SectorType.Nebula)
    (hE : ∀ p ∈ e, typeAt a b c d e f p = SectorType.Space)
    (hF : typeAt a b c d e f f = SectorType.X) :
    (build_sectors c f a b d e).data
      = (List.range cnt).map (fun p => Sector.mk (p + 1) (typeAt a b c d e f p)) := by
  have hres : (a.map (fun p => Sector.mk (p + 1) SectorType.Comet)
      ++ b.map (fun p => Sector.mk (p + 1) SectorType.Asteroid)
      ++ c.map (fun p => Sector.mk (p + 1) SectorType.DwarfPlanet)
      ++ d.map (fun p => Sector.mk (p + 1) SectorType.Nebula)
      ++ e.map (fun p => Sector.mk (p + 1) SectorType.Space)
      ++ [Sector.mk (f + 1) SectorType.X])
      = (a ++ (b ++ (c ++ (d ++ (e ++ [f]))))).map
          (fun p => Sector.mk (p + 1) (typeAt a b c d e f p)) := by
    simp only [List.map_append, List.append_assoc]
    rw [List.map_congr_left (f := fun p => Sector.mk (p + 1) SectorType.Comet)
        (g := fun p => Sector.mk (p + 1) (typeAt a b c d e f p))
        (fun p hp => by dsimp only; rw [hA p hp]),
      List.map_congr_left (f := fun p => Sector.mk (p + 1) SectorType.Asteroid)
        (g := fun p => Sector.mk (p + 1) (typeAt a b c d e f p))
        (fun p hp => by dsimp only; rw [hB p hp]),
      List.map_congr_left (f := fun p => Sector.mk (p + 1) SectorType.DwarfPlanet)
        (g := fun p => Sector.mk (p + 1) (typeAt a b c d e f p))
        (fun p hp => by dsimp only; rw [hC p hp]),
      List.map_congr_left (f := fun p => Sector.mk (p + 1) SectorType.Nebula)
        (g := fun p => Sector.mk (p + 1) (typeAt a b c d e f p))
        (fun p hp => by dsimp only; rw [hD p hp]),
      List.map_congr_left (f := fun p => Sector.mk (p + 1) SectorType.Space)
        (g := fun p => Sector.mk (p + 1) (typeAt a b c d e f p))
        (fun p hp => by dsimp only; rw [hE p hp])]
    congr 1
    rw [List.map_singleton, hF]
  haveI htot : IsTotal Sector (fun s t => s.index ≤ t.index) :=
    ⟨fun s t => Nat.le_total s.index t.index⟩
  haveI htrans : IsTrans Sector (fun s t => s.index ≤ t.index) :=
    ⟨fun s t u hst htu => Nat.le_trans hst htu⟩
  have hgoal : (build_sectors c f a b d e).data
      = List.insertionSort (fun s t => s.index ≤ t.index)
          ((a ++ (b ++ (c ++ (d ++ (e ++ [f]))))).map
            (fun p => Sector.mk (p + 1) (typeAt a b c d e f p))) := by
    unfold build_sectors
    rw [hres]
  rw [hgoal]
  have hLR : (List.insertionSort (fun s t => s.index ≤ t.index)
        ((a ++ (b ++ (c ++ (d ++ (e ++ [f]))))).map
          (fun p => Sector.mk (p + 1) (typeAt a b c d e f p)))).Perm
      ((List.range cnt).map (fun p => Sector.mk (p + 1) (typeAt a b c d e f p))) :=
    (List.perm_insertionSort _ _).trans
      (hperm.map (fun p => Sector.mk (p + 1) (typeAt a b c d e f p)))
  have hRsorted : ((List.range cnt).map
      (fun p => Sector.mk (p + 1) (typeAt a b c d e f p))).Pairwise
        (fun s t => s.index < t.index) := by
    rw [List.pairwise_map]
    exact (List.pairwise_lt_range cnt).imp (fun h => Nat.succ_lt_succ h)
  have hRnodupIdx : (((List.range cnt).map
      (fun p => Sector.mk (p + 1) (typeAt a b c d e f p))).map
        (fun s => s.index)).Nodup := by
    rw [List.map_map]
    have hcomp : ((fun s : Sector => s.index)
        ∘ (fun p => Sector.mk (p + 1) (typeAt a b c d e f p))) = fun p => p + 1 := by
      funext p
      rfl
    rw [hcomp]
    exact List.Nodup.map (fun a b hxy => Nat.add_right_cancel hxy) (List.nodup_range cnt)
  have hLnodupIdx : ((List.insertionSort (fun s t => s.index ≤ t.index)
      ((a ++ (b ++ (c ++ (d ++ (e ++ [f]))))).map
        (fun p => Sector.mk (p + 1) (typeAt a b c d e f p)))).map
          (fun s => s.index)).Nodup :=
    ((hLR.map (fun s => s.index)).nodup_iff).mpr hRnodupIdx
  have hLsortedLe := List.sorted_insertionSort (fun s t : Sector => s.index ≤ t.index)
    ((a ++ (b ++ (c ++ (d ++ (e ++ [f]))))).map
      (fun p => Sector.mk (p + 1) (typeAt a b c d e f p)))
  have hLne := (List.pairwise_map (f := fun s : Sector => s.index)
    (R := fun x y : Nat => x ≠ y)).mp hLnodupIdx
  have hLsorted : (List.insertionSort (fun s t => s.index ≤ t.index)
      ((a ++ (b ++ (c ++ (d ++ (e ++ [f]))))).map
        (fun p => Sector.mk (p + 1) (typeAt a b c d e f p)))).Pairwise
          (fun s t => s.index < t.index) :=
    (hLsortedLe.and hLne).imp (fun hp => Nat.lt_of_le_of_ne hp.1 hp.2)
  haveI : IsAntisymm Sector (fun s t => s.index < t.index) :=
    ⟨fun s t hst hts => absurd (Nat.lt_trans hst hts) (Nat.lt_irrefl _)⟩
  exact List.eq_of_perm_of_sorted hLR hLsorted hRsorted

/-- Positional access in the range-map form. -/
theorem range_map_at {cnt : Nat} {t : Nat → SectorType} {ss : Sectors}
    (hdata : ss.data = (List.range cnt).map (fun p => Sector.mk (p + 1) (t p)))
    {p : Nat} (hp : p < cnt) :
    ss.at (p + 1) = Sector.mk (p + 1) (t p) := by
  unfold Sectors.at
  rw [hdata]
  simp only [Nat.add_sub_cancel, List.getD_eq_getElem?_getD, List.getElem?_map,
    List.getElem?_range hp, Option.map_some', Option.getD_some]

/-- Length in the range-map form. -/
theorem range_map_length {cnt : Nat} {t : Nat → SectorType} {ss : Sectors}
    (hdata : ss.data = (List.range cnt).map (fun p => Sector.mk (p + 1) (t p))) :
    ss.data.length = cnt := by
  rw [hdata, List.length_map, List.length_range]

/-- Members of the range-map form are exactly the positional sectors. -/
theorem range_map_mem {cnt : Nat} {t : Nat → SectorType} {ss : Sectors}
    (hdata : ss.data = (List.range cnt).map (fun p => Sector.mk (p + 1) (t p)))
    {s : Sector} (hs : s ∈ ss.data) :
    ∃ p, p < cnt ∧ s = Sector.mk (p + 1) (t p) := by
  rw [hdata] at hs
  simp only [List.mem_map, List.mem_range] at hs
  obtain ⟨p, hp, rfl⟩ := hs
  exact ⟨p, hp, rfl⟩

/-- `prev` in the range-map form is position `(p + cnt - 1) % cnt`. -/
theorem range_map_prev {cnt : Nat} {t : Nat → SectorType} {ss : Sectors}
    (hdata : ss.data = (List.range cnt).map (fun p => Sector.mk (p + 1) (t p)))
    {p : Nat} (hp : p < cnt) :
    ss.prev (p + 1) = Sector.mk ((p + cnt - 1) % cnt + 1) (t ((p + cnt - 1) % cnt)) := by
  have hlen := range_map_length hdata
  simp only [Sectors.prev]
  rw [hlen]
  by_cases hp0 : p + 1 = 1
  · rw [if_pos hp0]
    have hpz : p = 0 := by omega
    subst hpz
    have e1 : 0 + cnt - 1 = cnt - 1 := by omega
    rw [e1, Nat.mod_eq_of_lt (by omega)]
    have hat := range_map_at hdata (p := cnt - 1) (by omega)
    have e2 : cnt - 1 + 1 = cnt := by omega
    rw [e2] at hat
    rw [e2]
    exact hat
  · rw [if_neg hp0]
    have e1 : (p + cnt - 1) % cnt = p - 1 := by
      have e0 : p + cnt - 1 = (p - 1) + cnt := by omega
      rw [e0, Nat.add_mod_right, Nat.mod_eq_of_lt (by omega)]
    rw [e1]
    have hat := range_map_at hdata (p := p - 1) (by omega)
    have e2 : p - 1 + 1 = p := by omega
    have e3 : p + 1 - 1 = p := by omega
    conv at hat => lhs; rw [e2]
    rw [e3]
    exact hat

/-- `next` in the range-map form is position `(p + 1) % cnt`. -/
theorem range_map_next {cnt : Nat} {t : Nat → SectorType} {ss : Sectors}
    (hdata : ss.data = (List.range cnt).map (fun p => Sector.mk (p + 1) (t p)))
    {p : Nat} (hp : p < cnt) :
    ss.next (p + 1) = Sector.mk ((p + 1) % cnt + 1) (t ((p + 1) % cnt)) := by
  have hlen := range_map_length hdata
  simp only [Sectors.next]
  rw [hlen]
  by_cases hpe : p + 1 = cnt
  · rw [if_pos hpe]
    rw [hpe, Nat.mod_self]
    exact range_map_at hdata (by omega)
  · rw [if_neg hpe]
    rw [Nat.mod_eq_of_lt (by omega)]
    exact range_map_at hdata (by omega)

/-- The Space-group size of the leftover split, per board. -/
def eLenOf : MapType → Nat
  | MapType.Standard => 2
  | MapType.Expert => 5

/-- Destructuring membership in the staged enumeration. -/
theorem mem_gen_sec {mt : MapType} {ss : Sectors} (h : ss ∈ gen_sec mt) :
    ∃ c f a b d e, c ∈ generate_c mt ∧ f ∈ generate_f c mt ∧ a ∈ generate_a c f mt ∧
      b ∈ generate_b c f a mt ∧
      (d, e) ∈ de_splits mt.sector_count (eLenOf mt)
        ((List.range mt.sector_count).filter (fun p =>
          !decide (p ∈ a) && !decide (p ∈ b) && !decide (p ∈ c) && !decide (p = f))) ∧
      ss = build_sectors c f a b d e := by
  unfold gen_sec at h
  simp only [List.mem_flatMap] at h
  obtain ⟨c, hc, h⟩ := h
  obtain ⟨f, hf, h⟩ := h
  obtain ⟨a, ha, h⟩ := h
  rw [List.mem_flatten] at h
  obtain ⟨L, hL, hssL⟩ := h
  rw [List.mem_filterMap] at hL
  obtain ⟨b, hb, hLb⟩ := hL
  refine ⟨c, f, a, b, ?_⟩
  cases mt with
  | Standard =>
    simp only [Option.map_eq_some'] at hLb
    obtain ⟨de, hde, rfl⟩ := hLb
    unfold predefLookup at hde
    split at hde
    · obtain rfl : de_splits 12 2 _ = de := by
        cases hde
        rfl
      rw [List.mem_map] at hssL
      obtain ⟨pr, hpr, rfl⟩ := hssL
      exact ⟨pr.1, pr.2, hc, hf, ha, hb, hpr, rfl⟩
    · cases hde
  | Expert =>
    simp only [Option.map_eq_some'] at hLb
    obtain ⟨de, hde, rfl⟩ := hLb
    unfold predefLookup at hde
    split at hde
    · obtain rfl : de_splits 18 5 _ = de := by
        cases hde
        rfl
      rw [List.mem_map] at hssL
      obtain ⟨pr, hpr, rfl⟩ := hssL
      exact ⟨pr.1, pr.2, hc, hf, ha, hb, hpr, rfl⟩
    · cases hde

/-- The window shape of an Expert DwarfPlanet group. -/
theorem generate_c_expert_shape {c : List Nat} (hc : c ∈ generate_c MapType.Expert) :
    ∃ start, start < 18 ∧ start ∈ c ∧ (start + 5) % 18 ∈ c ∧
      ∀ p ∈ c, ∃ k, k ≤ 5 ∧ p = (start + k) % 18 := by
  unfold generate_c at hc
  simp only [MapType.sector_count] at hc
  simp only [List.mem_flatMap, List.mem_map, List.mem_range] at hc
  obtain ⟨start, hstart, comb, hcomb, rfl⟩ := hc
  rw [List.mem_sublistsLen] at hcomb
  refine ⟨start, hstart, List.mem_cons_self _ _,
    List.mem_cons_of_mem _ (List.mem_cons_self _ _), ?_⟩
  intro p hp
  simp only [List.mem_cons] at hp
  rcases hp with rfl | rfl | hm
  · exact ⟨0, by omega, by rw [Nat.add_zero, Nat.mod_eq_of_lt hstart]⟩
  · exact ⟨5, by omega, rfl⟩
  · have := hcomb.1.subset hm
    simp only [List.mem_cons, List.not_mem_nil, or_false] at this
    rcases this with rfl | rfl | rfl | rfl
    · exact ⟨1, by omega, rfl⟩
    · exact ⟨2, by omega, rfl⟩
    · exact ⟨3, by omega, rfl⟩
    · exact ⟨4, by omega, rfl⟩

/-- Counting a constant predicate. -/
theorem countP_const {α : Type} (g : List α) (bo : Bool) :
    g.countP (fun _ => bo) = if bo then g.length else 0 := by
  induction g with
  | nil => cases bo <;> rfl
  | cons x xs ih => cases bo <;> simp [List.countP_cons, ih] <;> cases ih <;> omega

/-- Counting one type over a group of constant-type sectors. -/
theorem countP_map_const {g : List Nat} {F : Nat → Sector} {T : SectorType} (t : SectorType)
    (hg : ∀ p ∈ g, (F p).type = T) :
    (g.map F).countP (fun s => s.type == t) = if T == t then g.length else 0 := by
  induction g with
  | nil => cases (T == t) <;> rfl
  | cons x xs ih =>
    have hx := hg x (List.mem_cons_self x xs)
    have ihx := ih (fun p hp => hg p (List.mem_cons_of_mem x hp))
    simp only [List.map_cons, List.countP_cons, ihx, hx, List.length_cons]
    cases h : (T == t) <;> simp [h]

/-- C1: every layout produced by the Enumerator's lazy stream satisfies all
§3 structural invariants: the fixed per-type counts, Comet only at prime
1-based positions, every Asteroid adjacent to an Asteroid, no DwarfPlanet
adjacent to X, the Expert DwarfPlanets inside a contiguous 6-window whose two
endpoints are DwarfPlanet, and every Nebula adjacent to at least one Space. -/
theorem enumerator_layouts_satisfy_invariants (mt : MapType) :
    (gen_sec mt).Forall (layoutInv mt) := by
  rw [List.forall_iff_forall_mem]
  intro ss hss
  obtain ⟨c, f, a, b, d, e, hc, hf, ha, hb, hde, rfl⟩ := mem_gen_sec hss
  obtain ⟨hclen, hcnd, hclt⟩ := generate_c_spec hc
  obtain ⟨hflt, hfnc, hfadj⟩ := generate_f_spec hf
  obtain ⟨halen, hand, hamem⟩ := generate_a_spec ha
  obtain ⟨hblen, hbnd, hbmem, hbadj⟩ := generate_b_spec hb
  obtain ⟨hdlen, hdsub, hee, helen, hdval⟩ := de_splits_spec hde
  have hposmem : ∀ p, p ∈ (List.range mt.sector_count).filter (fun p =>
      !decide (p ∈ a) && !decide (p ∈ b) && !decide (p ∈ c) && !decide (p = f)) ↔
      (p < mt.sector_count ∧ p ∉ a ∧ p ∉ b ∧ p ∉ c ∧ p ≠ f) := by
    intro p
    simp only [List.mem_filter, List.mem_range, Bool.and_eq_true, Bool.not_eq_true',
      decide_eq_false_iff_not]
    tauto
  have hdpos : ∀ p ∈ d, p < mt.sector_count ∧ p ∉ a ∧ p ∉ b ∧ p ∉ c ∧ p ≠ f :=
    fun p hp => (hposmem p).mp (hdsub.subset hp)
  have hepos : ∀ p ∈ e, (p < mt.sector_count ∧ p ∉ a ∧ p ∉ b ∧ p ∉ c ∧ p ≠ f) ∧ p ∉ d := by
    intro p hp
    rw [hee, List.mem_filter] at hp
    refine ⟨(hposmem p).mp hp.1, ?_⟩
    have h2 := hp.2
    simpa using h2
  have hpos_split : ∀ p, p < mt.sector_count → p ∉ a → p ∉ b → p ∉ c → p ≠ f →
      p ∈ d ∨ p ∈ e := by
    intro p h1 h2 h3 h4 h5
    by_cases hpd : p ∈ d
    · exact Or.inl hpd
    · refine Or.inr ?_
      rw [hee, List.mem_filter]
      exact ⟨(hposmem p).mpr ⟨h1, h2, h3, h4, h5⟩, by simpa using hpd⟩
  have hdnd : d.Nodup := hdsub.nodup ((List.nodup_range _).filter _)
  have hend : e.Nodup := by
    rw [hee]
    exact ((List.nodup_range _).filter _).filter _
  have hPnodup : (a ++ (b ++ (c ++ (d ++ (e ++ [f]))))).Nodup := by
    simp only [List.nodup_append, List.disjoint_left, List.mem_append, List.mem_singleton,
      List.nodup_singleton, and_true, not_or]
    refine ⟨hand, ⟨hbnd, ⟨hcnd, ⟨hdnd, ⟨hend, trivial, ?_⟩, ?_⟩, ?_⟩, ?_⟩, ?_⟩
    · intro p hp
      exact (hepos p hp).1.2.2.2.2
    · intro p hp
      exact ⟨fun h => (hepos p h).2 hp, (hdpos p hp).2.2.2.2⟩
    · intro p hp
      exact ⟨fun h => (hdpos p h).2.2.2.1 hp, fun h => (hepos p h).1.2.2.2.1 hp,
        fun h => hfnc (h ▸ hp)⟩
    · intro p hp
      exact ⟨fun h => (hbmem p hp).2.1 h, fun h => (hdpos p h).2.2.1 hp,
        fun h => (hepos p h).1.2.2.1 hp, (hbmem p hp).2.2.2⟩
    · intro p hp
      exact ⟨fun h => (hbmem p h).2.2.1 hp, (hamem p hp).2.2.1,
        fun h => (hdpos p h).2.1 hp, fun h => (hepos p h).1.2.1 hp,
        (hamem p hp).2.2.2⟩
  have hPsub : ∀ p ∈ (a ++ (b ++ (c ++ (d ++ (e ++ [f]))))), p < mt.sector_count := by
    intro p hp
    simp only [List.mem_append, List.mem_singleton] at hp
    rcases hp with h | h | h | h | h | rfl
    · exact (hamem p h).1
    · exact (hbmem p h).1
    · exact hclt p h
    · exact (hdpos p h).1
    · exact (hepos p h).1.1
    · exact hflt
  have hPlen : (a ++ (b ++ (c ++ (d ++ (e ++ [f]))))).length = mt.sector_count := by
    simp only [List.length_append, List.length_singleton, halen, hblen, hclen, hdlen, helen]
    cases mt <;> simp [typeCount, eLenOf, MapType.sector_count]
  have hPperm : (a ++ (b ++ (c ++ (d ++ (e ++ [f]))))).Perm (List.range mt.sector_count) := by
    refine (hPnodup.subperm ?_).perm_of_length_le ?_
    · intro p hp
      exact List.mem_range.mpr (hPsub p hp)
    · rw [List.length_range, hPlen]
  have hA : ∀ p ∈ a, typeAt a b c d e f p = SectorType.Comet := by
    intro p hp
    unfold typeAt
    rw [if_pos hp]
  have hB : ∀ p ∈ b, typeAt a b c d e f p = SectorType.Asteroid := by
    intro p hp
    unfold typeAt
    rw [if_neg ((hbmem p hp).2.2.1), if_pos hp]
  have hC : ∀ p ∈ c, typeAt a b c d e f p = SectorType.DwarfPlanet := by
    intro p hp
    unfold typeAt
    rw [if_neg (fun h => (hamem p h).2.2.1 hp), if_neg (fun h => (hbmem p h).2.1 hp),
      if_pos hp]
  have hD : ∀ p ∈ d, typeAt a b c d e f p = SectorType.Nebula := by
    intro p hp
    unfold typeAt
    rw [if_neg ((hdpos p hp).2.1), if_neg ((hdpos p hp).2.2.1),
      if_neg ((hdpos p hp).2.2.2.1), if_pos hp]
  have hE : ∀ p ∈ e, typeAt a b c d e f p = SectorType.Space := by
    intro p hp
    unfold typeAt
    rw [if_neg ((hepos p hp).1.2.1), if_neg ((hepos p hp).1.2.2.1),
      if_neg ((hepos p hp).1.2.2.2.1), if_neg ((hepos p hp).2), if_pos hp]
  have hFX : typeAt a b c d e f f = SectorType.X := by
    unfold typeAt
    rw [if_neg (fun h => (hamem f h).2.2.2 rfl), if_neg (fun h => (hbmem f h).2.2.2 rfl),
      if_neg hfnc, if_neg (fun h => (hdpos f h).2.2.2.2 rfl),
      if_neg (fun h => (hepos f h).1.2.2.2.2 rfl)]
  have hdata := build_sectors_eq hPperm hA hB hC hD hE hFX
  have invA : ∀ p, typeAt a b c d e f p = SectorType.Comet → p ∈ a := by
    intro p hty
    by_cases hg : p ∈ a
    · exact hg
    · unfold typeAt at hty
      split_ifs at hty <;> first
        | exact absurd hty (by decide)
        | exact absurd (by assumption : p ∈ a) hg
  have invB : ∀ p, typeAt a b c d e f p = SectorType.Asteroid → p ∈ b := by
    intro p hty
    by_cases hg : p ∈ b
    · exact hg
    · unfold typeAt at hty
      split_ifs at hty <;> first
        | exact absurd hty (by decide)
        | exact absurd (by assumption : p ∈ b) hg
  have invC : ∀ p, typeAt a b c d e f p = SectorType.DwarfPlanet → p ∈ c := by
    intro p hty
    by_cases hg : p ∈ c
    · exact hg
    · unfold typeAt at hty
      split_ifs at hty <;> first
        | exact absurd hty (by decide)
        | exact absurd (by assumption : p ∈ c) hg
  have invD : ∀ p, typeAt a b c d e f p = SectorType.Nebula → p ∈ d := by
    intro p hty
    by_cases hg : p ∈ d
    · exact hg
    · unfold typeAt at hty
      split_ifs at hty <;> first
        | exact absurd hty (by decide)
        | exact absurd (by assumption : p ∈ d) hg
  have invX : ∀ q, q < mt.sector_count → typeAt a b c d e f q = SectorType.X → q = f := by
    intro q hlt hty
    by_contra hqf
    unfold typeAt at hty
    split_ifs at hty with h1 h2 h3 h4 h5 <;> first
      | exact absurd hty (by decide)
      | (rcases hpos_split q hlt h1 h2 h3 hqf with hm | hm
         · exact h4 hm
         · exact h5 hm)
  refine ⟨?_, ?_, ?_, ?_, ?_, ?_⟩
  · -- per-type counts
    intro t
    rw [← List.countP_eq_length_filter]
    have hperm2 : (build_sectors c f a b d e).data.Perm
        ((a ++ (b ++ (c ++ (d ++ (e ++ [f]))))).map
          (fun p => Sector.mk (p + 1) (typeAt a b c d e f p))) := by
      rw [hdata]
      exact (hPperm.map _).symm
    rw [hperm2.countP_eq]
    simp only [List.map_append, List.countP_append, List.map_singleton]
    rw [countP_map_const t (fun p hp => hA p hp),
      countP_map_const t (fun p hp => hB p hp),
      countP_map_const t (fun p hp => hC p hp),
      countP_map_const t (fun p hp => hD p hp),
      countP_map_const t (fun p hp => hE p hp)]
    have hfcnt : List.countP (fun s => s.type == t)
        [Sector.mk (f + 1) (typeAt a b c d e f f)] = if SectorType.X == t then 1 else 0 := by
      rw [hFX]
      simp only [List.countP_cons, List.countP_nil]
      cases h : (SectorType.X == t) <;> simp [h]
    rw [hfcnt, halen, hblen, hclen, hdlen, helen]
    cases t <;> cases mt <;> simp [typeCount, eLenOf]
  · -- Comet only at prime positions
    intro s hs hsty
    obtain ⟨p, hp, rfl⟩ := range_map_mem hdata hs
    have hpa := invA p hsty
    exact (hamem p hpa).2.1
  · -- every Asteroid has an adjacent Asteroid
    intro s hs hsty
    obtain ⟨p, hp, rfl⟩ := range_map_mem hdata hs
    have hpb := invB p hsty
    rcases hbadj p hpb with hadj | hadj
    · left
      rw [range_map_prev hdata hp]
      exact hB _ hadj
    · right
      rw [range_map_next hdata hp]
      exact hB _ hadj
  · -- no DwarfPlanet adjacent to X
    intro s hs hsty
    obtain ⟨p, hp, rfl⟩ := range_map_mem hdata hs
    have hpc := invC p hsty
    have hadj := hfadj p hpc
    constructor
    · rw [range_map_prev hdata hp]
      intro hX
      have hlt2 : (p + mt.sector_count - 1) % mt.sector_count < mt.sector_count :=
        Nat.mod_lt _ (by omega)
      exact hadj.1 (invX _ hlt2 hX)
    · rw [range_map_next hdata hp]
      intro hX
      have hlt2 : (p + 1) % mt.sector_count < mt.sector_count := Nat.mod_lt _ (by omega)
      exact hadj.2 (invX _ hlt2 hX)
  · -- Expert 6-window
    intro hmt
    subst hmt
    obtain ⟨start, hstart, hstartc, hendc, hshape⟩ := generate_c_expert_shape hc
    refine ⟨start, hstart, ?_, ?_, ?_⟩
    · intro s hs hsty
      obtain ⟨p, hp, rfl⟩ := range_map_mem hdata hs
      have hpc := invC p hsty
      obtain ⟨k, hk, rfl⟩ := hshape p hpc
      exact ⟨k, hk, rfl⟩
    · have := range_map_at hdata (p := start) hstart
      rw [this]
      exact hC start hstartc
    · have hlt5 : (start + 5) % 18 < 18 := Nat.mod_lt _ (by omega)
      have := range_map_at hdata (p := (start + 5) % 18) hlt5
      rw [this]
      exact hC _ hendc
  · -- every Nebula adjacent to a Space
    intro s hs hsty
    obtain ⟨p, hp, rfl⟩ := range_map_mem hdata hs
    have hpd := invD p hsty
    rcases hdval p hpd with hadj | hadj
    · left
      rw [range_map_prev hdata hp]
      exact hE _ hadj
    · right
      rw [range_map_next hdata hp]
      exact hE _ hadj


/-! ## A concrete run of the clue generator -/

/-- An eight-sector layout with `X` at position 4 and Space at positions 2
and 7. -/
def ssC : Sectors := Sectors.mk
  [⟨1, SectorType.DwarfPlanet⟩, ⟨2, SectorType.Space⟩, ⟨3, SectorType.Asteroid⟩,
   ⟨4, SectorType.X⟩, ⟨5, SectorType.Asteroid⟩, ⟨6, SectorType.Nebula⟩,
   ⟨7, SectorType.Space⟩, ⟨8, SectorType.Comet⟩]

/-- A draw stream under which the generator succeeds on its first locate
attempt. -/
def rngC : Rng := [1,5,0,0,200, 0,3,0,0,210, 2,0,0,0,200, 3,1,0,0,0, 1,0,0,0,236, 2,5,0,0,236, 1,0,0,0]

/-- The six general clues the run returns. -/
def resC : List Clue :=
  [⟨ClueEnum.A, SectorType.Asteroid, SectorType.Space, ClueConnection.OneAdjacent⟩,
   ⟨ClueEnum.B, SectorType.Comet, SectorType.Nebula, ClueConnection.NotAdjacent⟩,
   ⟨ClueEnum.C, SectorType.DwarfPlanet, SectorType.Comet, ClueConnection.OneAdjacent⟩,
   ⟨ClueEnum.D, SectorType.Nebula, SectorType.Asteroid, ClueConnection.AllAdjacent⟩,
   ⟨ClueEnum.E, SectorType.Asteroid, SectorType.Comet, ClueConnection.NotOpposite⟩,
   ⟨ClueEnum.F, SectorType.DwarfPlanet, SectorType.Space, ClueConnection.NotOpposite⟩]

/-- The locate clue the run returns. -/
def xresC : List Clue := [⟨ClueEnum.X1, SectorType.X, SectorType.Asteroid, ClueConnection.AllAdjacent⟩]

/-- The run succeeds, yet swapping `X` into the Space sector 2 still satisfies
every returned general clue and every returned locate clue: only the two
built-in default clues rule the swap out, so the returned clues alone do not
make the `X` position uniquely deducible. -/
theorem generate_clues_spec_counterexample :
    generate_clues ssC MapType.Standard 50 rngC = some (Except.ok (resC, xresC), [xresC])
      ∧ (ssC.at 2).type = SectorType.Space
      ∧ (ssC.at 4).type = SectorType.X
      ∧ ((resC ++ xresC).all (fun clue => checkClueWithSectors clue (swapXInto ssC 2))) = true
      ∧ ((resC ++ xresC ++ defaultClues).all
          (fun clue => checkClueWithSectors clue (swapXInto ssC 2))) = false :=
  ⟨rfl, rfl, rfl, by decide, by decide⟩

end PlanetX
